import Mathlib

/-!
Shallow embedding of the statistical-evaluation core of `ep-stats`
(`src/epstats/toolkit/{statistics, parser, experiment}.py`).

Modelling conventions used throughout this file:

* Machine floats are modelled by exact rationals (`ℚ`).  The transcendental
  library functions the kernel calls (`scipy.stats.t.cdf`, `t.ppf`,
  `norm.cdf`, `norm.ppf`, `np.sqrt`) are not algebraic, so they are passed
  in as an explicit record of abstract functions (`StatFns`); theorems state
  the properties of those functions they rely on as hypotheses (standard
  facts of the real cdf/ppf/sqrt such as `cdf (ppf p) = p`, monotonicity,
  or tail bounds), and witnesses instantiate them with concrete rational
  functions satisfying the hypotheses at the points used.
* Division of rationals is Lean's total division (`x / 0 = 0`), while numpy
  produces `nan`/`inf` under `np.errstate(ignore)`.  Every theorem whose
  conclusion would be affected carries nonvanishing hypotheses for the
  denominators involved, so it only speaks about inputs where the Python
  code computes finite numbers; where a non-finite result is itself the
  behaviour of interest (`required_sample_size` with `delta = 0`) it is
  modelled explicitly with `Option ℚ` (`none` = non-finite).
* `pandas` dataframes are lists of records; `groupby(...).sum()` is
  modelled by deduplicating keys and summing each group.  Pandas sorts the
  group keys while the model keeps first-occurrence order; no theorem below
  depends on the row order of a grouped table.
-/

namespace EpStats

/-- Rounding of a rational to the nearest integer, ties to even
(the rounding mode of `np.round`). -/
def roundHalfEven (x : ℚ) : ℤ :=
  let f := Int.floor x
  let r := x - f
  if r < 1 / 2 then f
  else if r > 1 / 2 then f + 1
  else if Even f then f else f + 1

/-- Model of `np.round(x, decimals=k)`: round half to even at `k` decimal
places. -/
def npRound (x : ℚ) (k : ℕ) : ℚ := (roundHalfEven (x * 10 ^ k) : ℚ) / 10 ^ k

/-- Model of `np.trunc`: drop the fractional part, rounding toward zero. -/
def npTrunc (x : ℚ) : ℚ := if 0 ≤ x then (Int.floor x : ℚ) else (Int.ceil x : ℚ)

/-- The largest double-precision float, `np.nan_to_num`'s replacement for
`+inf`. -/
def maxFloat : ℚ := 17976931348623157 * 10 ^ 292

/-- Model of `np.nan_to_num(p / a, nan=1)` as used on the p-value ratio in
`Statistics.multiple_comparisons_correction`: `0 / 0` is `nan ↦ 1`, and
`p / 0` with `p ≠ 0` is `±inf ↦ ±maxFloat`. -/
def npNanToNumDiv (p a : ℚ) : ℚ :=
  if a = 0 then (if p = 0 then 1 else if 0 < p then maxFloat else -maxFloat)
  else p / a

/-- The transcendental library functions used by `Statistics`, passed to the
embedding as abstract rational functions: `scipy.stats.t.cdf x df`,
`scipy.stats.t.ppf p df`, `scipy.stats.norm.cdf`, `scipy.stats.norm.ppf`
and `np.sqrt`. -/
structure StatFns where
  tCdf : ℚ → ℚ → ℚ
  tPpf : ℚ → ℚ → ℚ
  normCdf : ℚ → ℚ
  normPpf : ℚ → ℚ
  sqrt : ℚ → ℚ

/-! ### `Statistics.ttest_evaluation` -/

/-- One variant slice of the `stats` array passed to
`Statistics.ttest_evaluation` (for one metric): entries 2..7 of the
`(metrics, variants, stats)` array, namely `exp_variant_id`, `count`,
`mean`, `std`, `sum_value`, `confidence_level`. -/
structure VarStats where
  variant : String
  count : ℚ
  mean : ℚ
  std : ℚ
  sumValue : ℚ
  confLevel : ℚ
deriving Repr, DecidableEq

/-- One row of the dataframe returned by `Statistics.ttest_evaluation`. -/
structure TtestRow where
  metricId : ℤ
  metricName : String
  variant : String
  count : ℚ
  mean : ℚ
  std : ℚ
  sumValue : ℚ
  confLevel : ℚ
  diff : ℚ
  testStat : ℚ
  pValue : ℚ
  confidenceInterval : ℚ
  stdErr : ℚ
  degreesOfFreedom : ℚ
deriving Repr, DecidableEq

/-- A default `TtestRow`, used as the out-of-range value of list lookups. -/
def rowDefault : TtestRow :=
  ⟨0, "", "", 0, 0, 0, 0, 0, 0, 0, 0, 0, 0, 0⟩

/-- Welch–Satterthwaite degrees of freedom as computed by
`Statistics.ttest_evaluation`: `trunc(round(num / den, 5))`. -/
def welchDf (control s : VarStats) : ℚ :=
  let num := (control.std ^ 2 / control.count + s.std ^ 2 / s.count) ^ 2
  let den := control.std ^ 4 / (control.count ^ 2 * (control.count - 1)) +
    s.std ^ 4 / (s.count ^ 2 * (s.count - 1))
  npTrunc (npRound (num / den) 5)

/-- The standard error of the relative difference computed by
`Statistics.ttest_evaluation`. -/
def relSe (fns : StatFns) (control s : VarStats) : ℚ :=
  fns.sqrt ((s.mean * control.std) ^ 2 / (control.mean ^ 2 * control.count) +
    s.std ^ 2 / s.count) / control.mean

/-- The body of the per-variant loop of `Statistics.ttest_evaluation`:
statistics of variant `s` tested against the control variant `control`
(found by name by the caller). -/
def ttestVariantRow (fns : StatFns) (metricId : ℤ) (metricName : String)
    (control s : VarStats) : TtestRow :=
  let f := welchDf control s
  let tQuantile := fns.tPpf (control.confLevel + (1 - control.confLevel) / 2) f
  let relDiff := (s.mean - control.mean) / |control.mean|
  let se := relSe fns control s
  let testStat := relDiff / se
  let pval := 2 * (1 - fns.tCdf |testStat| f)
  { metricId := metricId, metricName := metricName, variant := s.variant,
    count := s.count, mean := s.mean, std := s.std, sumValue := s.sumValue,
    confLevel := control.confLevel, diff := relDiff, testStat := testStat,
    pValue := pval, confidenceInterval := se * tQuantile, stdErr := se,
    degreesOfFreedom := f }

/-- The per-metric slice of the `stats` array passed to
`Statistics.ttest_evaluation`: metric identity plus one `VarStats` per
variant, in the shared variant order. -/
structure MetricStats where
  id : ℤ
  name : String
  rows : List VarStats
deriving Repr, DecidableEq

/-- One metric of `Statistics.ttest_evaluation`: the control variant is the
first row whose `exp_variant_id` equals `control_variant` (`for s in stats:
if s[2][0] == control_variant: ...`); `none` when it is absent (the Python
code would then crash on an unbound variable).  Every variant row, the
control itself included, is compared against the control. -/
def ttestMetric (fns : StatFns) (controlVariant : String) (m : MetricStats) :
    Option (List TtestRow) :=
  (m.rows.find? (fun s => s.variant == controlVariant)).map
    (fun c => m.rows.map (ttestVariantRow fns m.id m.name c))

/-- Model of `Statistics.ttest_evaluation`: the output dataframe in
metric-major row order (the `reshape(x * y, z)` of the source).  The numpy
code vectorises over metrics with one shared variant axis; the model maps
over metrics, finding the control by name inside each metric's rows, which
agrees with the source whenever all metrics share the variant order (which
`Experiment._evaluate_metrics` guarantees by construction). -/
def ttestEvaluation (fns : StatFns) (metrics : List MetricStats)
    (controlVariant : String) : Option (List TtestRow) :=
  (metrics.mapM (ttestMetric fns controlVariant)).map List.flatten

/-! ### Holm–Bonferroni adjustment (`statsmodels.stats.multitest.multipletests`,
method `"holm"`), called by `Statistics.multiple_comparisons_correction`.
`multipletests` sorts the p-values (`np.argsort`), multiplies the sorted
values by `np.arange(ntests, 0, -1)`, takes `np.maximum.accumulate`, clips
at 1, and scatters the result back to the original positions. -/

/-- Insert index `i` into an index list sorted by the values of `pvals`
(helper of `argsort`). -/
def insertIdxBy (pvals : List ℚ) (i : ℕ) : List ℕ → List ℕ
  | [] => [i]
  | j :: rest =>
    if pvals.getD i 0 < pvals.getD j 0 then i :: j :: rest
    else j :: insertIdxBy pvals i rest

/-- Model of `np.argsort(pvals)` by insertion sort.  `np.argsort` is an
unstable sort, but the Holm adjustment assigns equal adjusted values to
tied p-values, so any argsort yields the same `holmAdjust`. -/
def argsort (pvals : List ℚ) : List ℕ :=
  (List.range pvals.length).foldr (insertIdxBy pvals) []

/-- Position of the first occurrence of `i` in an index list (the inverse
permutation lookup used to scatter sorted values back). -/
def posOf (i : ℕ) : List ℕ → ℕ
  | [] => 0
  | j :: rest => if i = j then 0 else posOf i rest + 1

/-- The p-values in ascending order (`np.take(pvals, sortind)`). -/
def holmSorted (pvals : List ℚ) : List ℚ :=
  (argsort pvals).map (fun i => pvals.getD i 0)

/-- The sorted p-values multiplied elementwise by
`np.arange(ntests, 0, -1)` (`pvals_corrected_raw`). -/
def holmRaw (pvals : List ℚ) : List ℚ :=
  (List.range pvals.length).map
    (fun k => ((pvals.length - k : ℕ) : ℚ) * (holmSorted pvals).getD k 0)

/-- Running maximum of `holmRaw` (`np.maximum.accumulate`), then clipped at
1 (`pvals_corrected[pvals_corrected > 1] = 1`). -/
def holmClipped (pvals : List ℚ) : List ℚ :=
  ((List.range pvals.length).map
    (fun k => ((holmRaw pvals).take (k + 1)).foldl max
      ((holmRaw pvals).getD 0 0))).map (fun x => if x > 1 then 1 else x)

/-- Holm step-down adjusted p-values,
`multipletests(pvals, alpha, method="holm")[1]`: sort ascending, multiply
the `k`-th sorted value by `ntests - k`, take the running maximum, clip at
1, and scatter back to the original positions
(`pvals_corrected_[sortind] = pvals_corrected`). -/
def holmAdjust (pvals : List ℚ) : List ℚ :=
  (List.range pvals.length).map
    (fun i => (holmClipped pvals).getD (posOf i (argsort pvals)) 0)

/-! ### `Statistics.multiple_comparisons_correction` -/

/-- The body of the per-metric loop of
`Statistics.multiple_comparisons_correction`, applied to the `n_variants-1`
rows `df.loc[m*n_variants+1 : (m+1)*n_variants-1]` of one metric block:
replace the p-values by their Holm adjustment, and replace each confidence
interval by `se * t.ppf(1 - adj_alpha + adj_alpha/2, df)` where
`adj_alpha = nan_to_num(p / adj_p, nan=1) * alpha`. -/
def mccBlock (fns : StatFns) (alpha : ℚ) (block : List TtestRow) :
    List TtestRow :=
  let pvals := block.map (fun r => r.pValue)
  let adj := holmAdjust pvals
  (List.range block.length).map (fun j =>
    let row := block.getD j rowDefault
    let aj := npNanToNumDiv (pvals.getD j 0) (adj.getD j 0) * alpha
    { row with
        pValue := adj.getD j 0,
        confidenceInterval :=
          row.stdErr * fns.tPpf (1 - aj + aj / 2) row.degreesOfFreedom })

/-- The adjusted significance level `adj_alpha = adj_ratio * alpha` of row
`j` of a metric block, with
`adj_ratio = np.nan_to_num(pvals / adj_pvals, nan=1)`. -/
def mccAdjAlpha (block : List TtestRow) (alpha : ℚ) (j : ℕ) : ℚ :=
  npNanToNumDiv ((block.map (fun r => r.pValue)).getD j 0)
    ((holmAdjust (block.map (fun r => r.pValue))).getD j 0) * alpha

/-- Model of `Statistics.multiple_comparisons_correction`: for each metric
`m`, rows `m*n_variants+1 .. (m+1)*n_variants-1` of the flattened t-test
dataframe (a positional slice that presumes the control variant is the
first row of each metric block) are replaced by their corrected values.
The blocks are disjoint, so the sequential in-place updates of the source
are a fold. -/
def multipleComparisonsCorrection (fns : StatFns) (df : List TtestRow)
    (nVariants metricsCount : ℕ) (confidenceLevel : ℚ) : List TtestRow :=
  let alpha := 1 - confidenceLevel
  (List.range metricsCount).foldl (fun acc m =>
    let start := m * nVariants + 1
    let block := (acc.drop start).take (nVariants - 1)
    acc.take start ++ mccBlock fns alpha block ++
      acc.drop (start + (nVariants - 1))) df

/-! ### `Statistics.obf_alpha_spending_function` -/

/-- Model of `Statistics.obf_alpha_spending_function`:
`alpha = 1 - confidence_level`, `t = actual_day / total_length`,
`q = norm.ppf(1 - alpha/2)`, `alpha_adj = 2 - 2*norm.cdf(q / sqrt t)`,
returning `np.round(1 - alpha_adj, 4)`. -/
def obfAlphaSpendingFunction (fns : StatFns) (confidenceLevel : ℚ)
    (totalLength actualDay : ℚ) : ℚ :=
  let alpha := 1 - confidenceLevel
  let t := actualDay / totalLength
  let q := fns.normPpf (1 - alpha / 2)
  let alphaAdj := 2 - 2 * fns.normCdf (q / fns.sqrt t)
  npRound (1 - alphaAdj) 4

/-! ### `Statistics.required_sample_size_per_variant` -/

/-- Truth of `Except.ok` (the call returned instead of raising). -/
def exceptIsOk : Except String α → Bool
  | .ok _ => true
  | .error _ => false

/-- Model of `Statistics.required_sample_size_per_variant`.  Raising a
`ValueError` is `Except.error`; the guards are exactly the source's
`minimum_effect < 0` and `n_variants < 2`.  A zero `delta = mean *
minimum_effect` makes numpy return a non-finite value (`inf`/`nan`) under
`errstate(ignore)`, modelled as `Option ℚ`'s `none`. -/
def requiredSampleSizePerVariant (fns : StatFns) (nVariants : ℕ)
    (minimumEffect mean std : ℚ) (std2 : Option ℚ)
    (confidenceLevel power : ℚ) : Except String (Option ℚ) :=
  if minimumEffect < 0 then
    .error "minimum_effect must be greater than zero."
  else if nVariants < 2 then
    .error "There must be at least two variants."
  else
    let twoVars := match std2 with
      | none => 2 * std ^ 2
      | some s2 => std ^ 2 + s2 ^ 2
    let delta := mean * minimumEffect
    let alpha := (1 - confidenceLevel) / ((nVariants : ℚ) - 1)
    let confidenceAndPower := (fns.normPpf (1 - alpha / 2) + fns.normPpf power) ^ 2
    if delta = 0 then .ok none
    else .ok (some (npRound (confidenceAndPower * (twoVars / delta ^ 2)) 0))

/-- Model of `Statistics.required_sample_size_per_variant_bernoulli`:
guard `mean > 1 or mean < 0`, then delegate with
`std = sqrt(mean*(1-mean))` and `std_2 = sqrt(mean_2*(1-mean_2))`,
`mean_2 = mean*(1+minimum_effect)`. -/
def requiredSampleSizePerVariantBernoulli (fns : StatFns) (nVariants : ℕ)
    (minimumEffect mean confidenceLevel power : ℚ) : Except String (Option ℚ) :=
  if mean > 1 ∨ mean < 0 then
    .error "mean must be between zero and one."
  else
    let mean2 := mean * (1 + minimumEffect)
    requiredSampleSizePerVariant fns nVariants minimumEffect mean
      (fns.sqrt (mean * (1 - mean))) (some (fns.sqrt (mean2 * (1 - mean2))))
      confidenceLevel power

/-! ### `parser.py`: goals, dimension predicates and expressions -/

/-- Model of `DimensionValue.__init__`: the parsed `(operator, literal)`
pair is folded into a single string.  `=` keeps the bare literal, `=^`
stores `"^" ++ literal`, every other operator stores `operator ++ literal`
(`"".join(t)`). -/
def dimensionValueEncode (op lit : String) : String :=
  if op = "=" then lit
  else if op = "=^" then "^" ++ lit
  else op ++ lit

/-- Model of an `EpGoal` node after parsing: goal coordinates, the value
column and its squared-value column (both column names, as in the source),
and the dimension-to-encoded-value mapping `dimension_to_value`. -/
structure EpGoal where
  unitType : String
  aggType : String
  goal : String
  column : String
  columnSqr : String
  dimensionToValue : List (String × String)
deriving Repr, DecidableEq

/-- One row of the aggregated goal dataframe consumed by
`Experiment.evaluate_agg`; `dims` holds the dimension columns as an
association list (a missing dimension column reads as `""`, the value
`fillna` assigns). -/
structure GoalRow where
  expId : String
  variant : String
  unitType : String
  aggType : String
  goal : String
  dims : List (String × String)
  count : ℚ
  sumSqrCount : ℚ
  sumValue : ℚ
  sumSqrValue : ℚ
  countUnique : ℚ
deriving Repr, DecidableEq

/-- The value of dimension column `d` in a row (missing columns read as the
empty string). -/
def lookupDim (r : GoalRow) (d : String) : String :=
  ((r.dims.find? (fun p => p.1 == d)).map (fun p => p.2)).getD ""

/-- Model of `EpGoal._get_dimension_mask` for one row: every dimension
column of the row must be equal (as a string) to the goal's stored
`dimension_to_value` entry (`goals[dimension] == dimension_value`). -/
def dimensionMask (g : EpGoal) (r : GoalRow) : Bool :=
  g.dimensionToValue.all (fun dv => lookupDim r dv.1 == dv.2)

/-- The row filter of `EpGoal._evaluate_agg`: `unit_type`, `agg_type` and
`goal` equal the goal's coordinates and the dimension mask holds. -/
def rowMatchesGoal (g : EpGoal) (r : GoalRow) : Bool :=
  r.unitType == g.unitType && r.aggType == g.aggType && r.goal == g.goal &&
    dimensionMask g r

/-- Reading a named numeric column of a row (`goals[column]`). -/
def rowField (r : GoalRow) (c : String) : ℚ :=
  if c = "count" then r.count
  else if c = "sum_sqr_count" then r.sumSqrCount
  else if c = "sum_value" then r.sumValue
  else if c = "sum_sqr_value" then r.sumSqrValue
  else if c = "count_unique" then r.countUnique
  else 0

/-- Model of `EpGoal._evaluate_agg` for one variant: the sum of column `c`
over the rows that pass the goal filter and belong to variant `v` (the
source groups the filtered rows by
`(exp_id, exp_variant_id, unit_type, agg_type, goal)` and sums; with the
filter fixing everything but `exp_id` and the variant, and one experiment
id in the table, the groups are exactly the variants). -/
def goalColumnSum (g : EpGoal) (c : String) (rows : List GoalRow)
    (v : String) : ℚ :=
  ((rows.filter (fun r => rowMatchesGoal g r && r.variant == v)).map
    (fun r => rowField r c)).sum

/-- Expression tree built by `Parser`: leaves are numbers and `EpGoal`
references, inner nodes the five binary operators. -/
inductive Expr where
  | num : ℚ → Expr
  | goal : EpGoal → Expr
  | plus : Expr → Expr → Expr
  | mult : Expr → Expr → Expr
  | div : Expr → Expr → Expr
  | sub : Expr → Expr → Expr
  | tilda : Expr → Expr → Expr
deriving Repr, DecidableEq

/-- Model of `evaluate_agg` of the expression nodes, per variant: a number
evaluates to itself, a goal to the sum of its `column`, and the binary
operators act elementwise (`+ * / -`, with `~` subtracting like `-`). -/
def evalAgg : Expr → List GoalRow → String → ℚ
  | .num n, _, _ => n
  | .goal g, rows, v => goalColumnSum g g.column rows v
  | .plus a b, rows, v => evalAgg a rows v + evalAgg b rows v
  | .mult a b, rows, v => evalAgg a rows v * evalAgg b rows v
  | .div a b, rows, v => evalAgg a rows v / evalAgg b rows v
  | .sub a b, rows, v => evalAgg a rows v - evalAgg b rows v
  | .tilda a b, rows, v => evalAgg a rows v - evalAgg b rows v

/-- Model of `evaluate_sqr` of the expression nodes, per variant: a number
contributes its square, a goal the sum of its `column_sqr`, and the binary
operators act elementwise with `+` adding, `*` multiplying, `/` dividing,
`-` subtracting and `~` adding the squared values. -/
def evalSqr : Expr → List GoalRow → String → ℚ
  | .num n, _, _ => n * n
  | .goal g, rows, v => goalColumnSum g g.columnSqr rows v
  | .plus a b, rows, v => evalSqr a rows v + evalSqr b rows v
  | .mult a b, rows, v => evalSqr a rows v * evalSqr b rows v
  | .div a b, rows, v => evalSqr a rows v / evalSqr b rows v
  | .sub a b, rows, v => evalSqr a rows v - evalSqr b rows v
  | .tilda a b, rows, v => evalSqr a rows v + evalSqr b rows v

/-- Specification-side semantics of one dimension predicate
`(operator, literal)` applied to a cell value, following the spec's words:
"`=^value` means prefix-matches value; all other operators compare as
strings".  This definition intentionally follows the spec, not the source,
and is only compared against the source's mask. -/
def specDimPredicate (op lit s : String) : Bool :=
  if op = "=" then s == lit
  else if op = "!=" then s != lit
  else if op = "<" then decide (s < lit)
  else if op = "<=" then (s == lit) || decide (s < lit)
  else if op = ">" then decide (lit < s)
  else if op = ">=" then (s == lit) || decide (lit < s)
  else if op = "=^" then lit.data.isPrefixOf s.data
  else false

/-! ### `experiment.py`: the orchestrator -/

/-- Insert a string into a sorted list (helper of `sortStrings`). -/
def insertString (s : String) : List String → List String
  | [] => [s]
  | t :: rest => if s < t then s :: t :: rest else t :: insertString s rest

/-- Sorting a list of strings, as `np.unique` and sorted `groupby` keys do. -/
def sortStrings (l : List String) : List String := l.foldr insertString []

/-- The goals referenced by an expression tree (`get_goals`). -/
def exprGoals : Expr → List EpGoal
  | .num _ => []
  | .goal g => [g]
  | .plus a b | .mult a b | .div a b | .sub a b | .tilda a b =>
    exprGoals a ++ exprGoals b

/-- A metric of an `Experiment`: identity, parsed nominator and denominator
expressions, the raw denominator string (used by
`_get_required_sample_sizes` to detect `value(` denominators), whether the
metric is a `SimpleMetric`, and the optional `minimum_effect`. -/
structure MetricE where
  id : ℤ
  name : String
  nominator : Expr
  denominator : Expr
  denominatorStr : String
  isSimple : Bool
  minimumEffect : Option ℚ

/-- One row of the checks result table: `check_id, check_name, variable_id,
value` plus the `exp_id` column the orchestrator adds. -/
structure CheckRow where
  checkId : ℤ
  checkName : String
  variableId : String
  value : ℚ
  expId : String
deriving Repr, DecidableEq

/-- A check of an `Experiment`: identity, the goals its expressions
reference, and its evaluation function (`evaluate_agg(goals,
control_variant)`), which may raise (`Except.error`).  The claims below
treat the concrete SRM/SumRatio evaluations abstractly through this
interface. -/
structure CheckE where
  id : ℤ
  name : String
  goals : List EpGoal
  eval : List GoalRow → String → Except String (List CheckRow)

/-- Model of an `Experiment`: identity, control variant, unit type, metric
and check lists, optional date range (dates as absolute day numbers),
confidence level and the optional explicit variant list. -/
structure ExperimentE where
  id : String
  controlVariant : String
  unitType : String
  metrics : List MetricE
  checks : List CheckE
  dateFrom : Option ℤ
  dateTo : Option ℤ
  dateFor : ℤ
  confidenceLevel : ℚ
  variants : Option (List String)

/-- The synthetic exposure goal `count({unit_type}.global.exposure)` every
experiment appends to its goals. -/
def exposureGoal (unitType : String) : EpGoal :=
  { unitType := unitType, aggType := "global", goal := "exposure",
    column := "count", columnSqr := "sum_sqr_count", dimensionToValue := [] }

/-- Model of `Experiment.get_goals`: the union of the goals of all metrics,
all checks and the exposure goal (the source materialises a Python set;
the model deduplicates keeping first occurrences — no theorem below
depends on the order). -/
def getGoals (exp : ExperimentE) : List EpGoal :=
  ((exp.metrics.flatMap (fun m => exprGoals m.nominator ++ exprGoals m.denominator))
    ++ exp.checks.flatMap (fun c => c.goals)
    ++ [exposureGoal exp.unitType]).dedup

/-- Model of `Experiment.get_dimension_columns`: all dimensions used by any
goal of the experiment. -/
def getDimensionColumns (exp : ExperimentE) : List String :=
  ((getGoals exp).flatMap (fun g => g.dimensionToValue.map (fun p => p.1))).dedup

/-- Model of `Experiment._set_variants`: the explicit variant list when
given, otherwise the sorted unique variants of the data together with the
control variant (`np.unique(np.append(...))`). -/
def experimentVariants (exp : ExperimentE) (rows : List GoalRow) : List String :=
  match exp.variants with
  | some vs => vs
  | none => sortStrings ((rows.map (fun r => r.variant) ++ [exp.controlVariant]).dedup)

/-- The grouping key of `Experiment._fix_missing_agg`'s `groupby`:
`(exp_id, exp_variant_id, unit_type, agg_type, goal)` plus all dimension
columns. -/
structure RowKey where
  expId : String
  variant : String
  unitType : String
  aggType : String
  goal : String
  dims : List String
deriving Repr, DecidableEq

/-- The grouping key of a row, with the dimension columns read in the fixed
order `dimCols`. -/
def rowKeyOf (dimCols : List String) (r : GoalRow) : RowKey :=
  { expId := r.expId, variant := r.variant, unitType := r.unitType,
    aggType := r.aggType, goal := r.goal, dims := dimCols.map (lookupDim r) }

/-- Model of `groupby(keys).sum()`: one output row per distinct key, with
the numeric columns summed over the rows of that key.  Pandas sorts the
keys; the model keeps first-occurrence order (no theorem below depends on
the row order). -/
def groupSumBy (dimCols : List String) (rows : List GoalRow) : List GoalRow :=
  ((rows.map (rowKeyOf dimCols)).dedup).map (fun k =>
    let grp := rows.filter (fun r => rowKeyOf dimCols r == k)
    { expId := k.expId, variant := k.variant, unitType := k.unitType,
      aggType := k.aggType, goal := k.goal, dims := dimCols.zip k.dims,
      count := (grp.map (fun r => r.count)).sum,
      sumSqrCount := (grp.map (fun r => r.sumSqrCount)).sum,
      sumValue := (grp.map (fun r => r.sumValue)).sum,
      sumSqrValue := (grp.map (fun r => r.sumSqrValue)).sum,
      countUnique := (grp.map (fun r => r.countUnique)).sum })

/-- The synthetic all-zero row `Experiment._fix_missing_agg` creates for a
(goal, variant) combination; dimension columns carry
`g.dimension_to_value.get(dimension, "")`. -/
def zeroRow (expId : String) (g : EpGoal) (v : String)
    (dimCols : List String) : GoalRow :=
  { expId := expId, variant := v, unitType := g.unitType,
    aggType := g.aggType, goal := g.goal,
    dims := dimCols.map (fun d =>
      (d, (((g.dimensionToValue.find? (fun p => p.1 == d)).map
        (fun p => p.2)).getD ""))),
    count := 0, sumSqrCount := 0, sumValue := 0, sumSqrValue := 0,
    countUnique := 0 }

/-- Model of `Experiment._fix_missing_agg`: keep only rows of the
experiment's variants, append an all-zero row for every (goal, variant)
combination, and group-sum by the full key. -/
def fixMissingAgg (exp : ExperimentE) (rows : List GoalRow) : List GoalRow :=
  let vs := experimentVariants exp rows
  let filtered := rows.filter (fun r => vs.contains r.variant)
  let dimCols := getDimensionColumns exp
  let zeros := (getGoals exp).flatMap (fun g => vs.map (fun v => zeroRow exp.id g v dimCols))
  groupSumBy dimCols (filtered ++ zeros)

/-- Model of `Experiment._evaluate_checks`: each check is evaluated in its
own try-scope; a raising check contributes nothing (the source logs a
warning and bumps an error counter), a succeeding one contributes its rows
with the `exp_id` column set. -/
def evaluateChecks (checks : List CheckE) (expId controlVariant : String)
    (goals : List GoalRow) : List CheckRow :=
  checks.flatMap (fun c =>
    match c.eval goals controlVariant with
    | .ok rs => rs.map (fun r => { r with expId := expId })
    | .error _ => [])

/-- One row of the exposures table. -/
structure ExposureRow where
  expId : String
  variant : String
  exposures : ℚ
deriving Repr, DecidableEq

/-- Model of `Experiment._exposures_fce_agg`: sum `count` over rows with
the experiment's unit type, `agg_type == "global"` and `goal ==
"exposure"`, grouped by variant. -/
def evaluateExposures (goals : List GoalRow) (expId unitType : String) :
    List ExposureRow :=
  let sel := goals.filter (fun r =>
    r.unitType == unitType && r.aggType == "global" && r.goal == "exposure")
  (sortStrings ((sel.map (fun r => r.variant)).dedup)).map (fun v =>
    { expId := expId, variant := v,
      exposures := ((sel.filter (fun r => r.variant == v)).map
        (fun r => r.count)).sum })

/-- The working confidence level of one evaluation: the O'Brien–Fleming
adjustment when a date range is set, the experiment's confidence level
otherwise (`Experiment._evaluate_metrics`). -/
def metricConfLevel (fns : StatFns) (exp : ExperimentE) : ℚ :=
  match exp.dateFrom, exp.dateTo with
  | some dfrom, some dto =>
    let testLength : ℤ := dto - dfrom + 1
    let actualDay : ℤ := min (exp.dateFor - dfrom + 1) testLength
    obfAlphaSpendingFunction fns exp.confidenceLevel (testLength : ℚ) (actualDay : ℚ)
  | _, _ => exp.confidenceLevel

/-- The per-variant statistics of one metric built by
`Experiment._evaluate_metrics` before the t-test: `count` from the
denominator, `sum_value`/`sum_sqr_value` from the nominator, `mean =
sum/count`, `std = sqrt((sum_sqr - sum²/count)/(count-1))`. -/
def metricVarStats (fns : StatFns) (m : MetricE) (goals : List GoalRow)
    (cl : ℚ) (v : String) : VarStats :=
  let c := evalAgg m.denominator goals v
  let s := evalAgg m.nominator goals v
  let ssq := evalSqr m.nominator goals v
  { variant := v, count := c, mean := s / c,
    std := fns.sqrt ((ssq - s * s / c) / (c - 1)), sumValue := s,
    confLevel := cl }

/-- The full `stats` array of `Experiment._evaluate_metrics`: one
`MetricStats` per metric, each over the shared variant order. -/
def metricStatsOf (fns : StatFns) (exp : ExperimentE) (goals : List GoalRow)
    (cl : ℚ) (variants : List String) : List MetricStats :=
  exp.metrics.map (fun m =>
    { id := m.id, name := m.name,
      rows := variants.map (metricVarStats fns m goals cl) })

/-- One row of the metrics result table: the t-test columns plus `exp_id`,
`minimum_effect`, `sample_size` and `required_sample_size` (`none` models
pandas `NaN` / a non-finite value). -/
structure MetricOutRow where
  row : TtestRow
  expId : String
  minimumEffect : Option ℚ
  sampleSize : Option ℚ
  requiredSampleSize : Option ℚ
deriving Repr, DecidableEq

/-- Except-valued traversal of a list (`map` that propagates a raise). -/
def mapExcept (f : α → Except ε β) : List α → Except ε (List β)
  | [] => .ok []
  | x :: xs => (f x).bind (fun y => (mapExcept f xs).map (fun ys => y :: ys))

/-- The control-row lookup of `Experiment._get_required_sample_sizes`: the
dict comprehension keeps the last matching row per metric id. -/
def controlsLookup (controlVariant : String) (df : List TtestRow) (mid : ℤ) :
    Option (ℚ × ℚ) :=
  ((df.filter (fun r => r.variant == controlVariant && r.metricId == mid)).map
    (fun r => (r.mean, r.std))).getLast?

/-- Model of `Experiment._get_required_sample_size` for one metrics row:
control rows and metrics without `minimum_effect` get `NaN`s; other rows
call `Statistics.required_sample_size_per_variant` with the control's mean
and standard deviation, which may raise. -/
def getRequiredSampleSize (fns : StatFns) (exp : ExperimentE)
    (nVariants : ℕ) (df : List TtestRow) (r : TtestRow) :
    Except String MetricOutRow :=
  match exp.metrics.find? (fun m => m.id == r.metricId) with
  | none => .error "KeyError: metric id"
  | some mt =>
    let sampleSize : Option ℚ :=
      if mt.denominatorStr.startsWith "value(" && !mt.isSimple then none
      else some r.count
    match mt.minimumEffect with
    | none => .ok ⟨r, exp.id, none, sampleSize, none⟩
    | some mev =>
      if r.variant == exp.controlVariant then
        .ok ⟨r, exp.id, none, sampleSize, none⟩
      else
        match controlsLookup exp.controlVariant df r.metricId with
        | none => .error "KeyError: control row"
        | some (mc, sc) =>
          (requiredSampleSizePerVariant fns nVariants mev mc sc (some r.std)
            r.confLevel (4 / 5)).map
            (fun n => ⟨r, exp.id, some mev, sampleSize, n⟩)

/-- Model of `Experiment._evaluate_metrics`: empty metric list short-cuts
to an empty table; otherwise build the stats array over the sorted unique
variants of the (filled) goal table, run the t-test (raising when the
control variant is absent — the source crashes on an unbound variable),
apply the multiple-comparisons correction when there are more than two
variants, and append the sample-size columns (which may raise). -/
def evaluateMetrics (fns : StatFns) (exp : ExperimentE)
    (goals : List GoalRow) : Except String (List MetricOutRow) :=
  if exp.metrics.isEmpty then .ok []
  else
    let variants := sortStrings ((goals.map (fun r => r.variant)).dedup)
    let nVariants := variants.length
    let cl := metricConfLevel fns exp
    match ttestEvaluation fns (metricStatsOf fns exp goals cl variants)
        exp.controlVariant with
    | none => .error "control variant not found"
    | some df =>
      let df2 := if nVariants > 2 then
          multipleComparisonsCorrection fns df nVariants exp.metrics.length cl
        else df
      mapExcept (getRequiredSampleSize fns exp nVariants df2) df2

/-- The three result tables of an evaluation. -/
structure Evaluation where
  metrics : List MetricOutRow
  checks : List CheckRow
  exposures : List ExposureRow
deriving Repr, DecidableEq

/-- Model of `Experiment.evaluate_agg` / `Experiment._evaluate`: fill the
missing cells, then produce the metrics (whose failure aborts the
evaluation), checks (whose per-check failures are swallowed) and exposures
tables from the filled table. -/
def evaluateAgg (fns : StatFns) (exp : ExperimentE) (goals : List GoalRow) :
    Except String Evaluation :=
  let g := fixMissingAgg exp goals
  match evaluateMetrics fns exp g with
  | .error e => .error e
  | .ok ms =>
    .ok { metrics := ms,
          checks := evaluateChecks exp.checks exp.id exp.controlVariant g,
          exposures := evaluateExposures g exp.id exp.unitType }

/-! ### Concrete instances used by witnesses and counterexamples.
The abstract `StatFns` records below are rational stand-ins agreeing with
the real `scipy` functions at every point where the surrounding statement
applies them (e.g. `sqrt 4 = 2`, `t.cdf(0, df) = 1/2`); values at other
points are irrelevant to the statements they are used in. -/

/-- A placeholder `StatFns` for statements whose truth does not depend on
the transcendental functions at all. -/
def fnsId : StatFns :=
  { tCdf := fun x _ => x, tPpf := fun p _ => p, normCdf := id,
    normPpf := id, sqrt := id }

/-- Functions for the control-row instance: exact square roots at the
arguments that occur, `t.cdf(0, ·) = 1/2`, and a `t.ppf` close to the real
`t.ppf(0.975, 2) ≈ 4.30`. -/
def c1Fns : StatFns :=
  { tCdf := fun _ _ => 1 / 2, tPpf := fun _ _ => 43 / 10, normCdf := id,
    normPpf := id,
    sqrt := fun q => if q = 1 then 1 else if q = 4 then 2 else 0 }

/-- A one-metric stats array with control variant `a`
(`count=2, mean=1, std=1`) and treatment `b` (`count=2, mean=2, std=2`). -/
def c1Metric : MetricStats :=
  { id := 1, name := "m",
    rows := [⟨"a", 2, 1, 1, 2, 19 / 20⟩, ⟨"b", 2, 2, 2, 4, 19 / 20⟩] }

/-- Functions for the Holm-correction instances: `t.ppf` is monotone in its
probability argument (the only property the statements rely on). -/
def c2Fns : StatFns :=
  { tCdf := fun _ _ => 1 / 2, tPpf := fun p _ => p, normCdf := id,
    normPpf := id, sqrt := id }

/-- A two-treatment metric block as produced by the t-test with
`confidence_level = 0.95` under `c2Fns` (`conf_int = se * t.ppf(0.975, df)
= 1 * 39/40`), with raw p-values `0.01` and `0.04`. -/
def c2Block : List TtestRow :=
  [{ metricId := 1, metricName := "m", variant := "b", count := 2, mean := 1,
     std := 1, sumValue := 2, confLevel := 19 / 20, diff := 0, testStat := 0,
     pValue := 1 / 100, confidenceInterval := 39 / 40, stdErr := 1,
     degreesOfFreedom := 2 },
   { metricId := 1, metricName := "m", variant := "c", count := 2, mean := 1,
     std := 1, sumValue := 2, confLevel := 19 / 20, diff := 0, testStat := 0,
     pValue := 1 / 25, confidenceInterval := 39 / 40, stdErr := 1,
     degreesOfFreedom := 2 }]

/-- A goal with the prefix predicate `product=^pro`, as parsed from
`count(u.unit.g(product=^pro))`. -/
def c3Goal : EpGoal :=
  { unitType := "u", aggType := "unit", goal := "g", column := "count",
    columnSqr := "sum_sqr_count",
    dimensionToValue := [("product", dimensionValueEncode "=^" "pro")] }

/-- A row whose `product` column starts with `pro` (so the spec's prefix
predicate matches it). -/
def c3Row : GoalRow :=
  { expId := "e", variant := "a", unitType := "u", aggType := "unit",
    goal := "g", dims := [("product", "product_1")], count := 5,
    sumSqrCount := 5, sumValue := 5, sumSqrValue := 5, countUnique := 5 }

/-- An experiment with explicit variants `a, b`, no metrics and no checks
(its only referenced goal is the synthetic exposure goal). -/
def c5Exp : ExperimentE :=
  { id := "exp", controlVariant := "a", unitType := "u", metrics := [],
    checks := [], dateFrom := none, dateTo := none, dateFor := 0,
    confidenceLevel := 19 / 20, variants := some ["a", "b"] }

/-- Input data containing rows only for variant `a`. -/
def c5Rows : List GoalRow :=
  [{ expId := "exp", variant := "a", unitType := "u", aggType := "global",
     goal := "exposure", dims := [], count := 3, sumSqrCount := 3,
     sumValue := 3, sumSqrValue := 3, countUnique := 3 }]

/-- Functions for the alpha-spending instances: `norm.ppf(0.975) = 2`
(the real value is `≈ 1.96`), `norm.cdf` is its inverse there, is `1` in
the far tail and the identity on small arguments (where only the
cancellation `cdf (ppf p) = p` is used), and `sqrt(1/14) = 1/4`
(the real value is `≈ 0.267`; only `0 < sqrt(1/14) ≤ 1/3` is used). -/
def c6Fns : StatFns :=
  { tCdf := fun _ _ => 1 / 2, tPpf := fun p _ => p,
    normCdf := fun x => if x = 2 then 39 / 40 else if 9 / 2 ≤ x then 1 else x,
    normPpf := fun p => if p = 39 / 40 then 2 else p,
    sqrt := fun x => if x = 1 then 1 else if x = 1 / 14 then 1 / 4 else 0 }

/-- Functions for the permutation instance: exact square roots at the
arguments that occur, a monotone step `t.cdf` giving p-values
`1, 0.03, 0.02` for the three variants, and a constant `t.ppf`. -/
def c8Fns : StatFns :=
  { tCdf := fun x _ =>
      if x = 0 then 1 / 2
      else if x = 1 / 2 then 197 / 200
      else if x = 2 / 3 then 99 / 100
      else 1,
    tPpf := fun _ _ => 2, normCdf := id, normPpf := id,
    sqrt := fun q =>
      if q = 1 then 1 else if q = 4 then 2 else if q = 9 then 3 else 0 }

/-- Control variant stats for the permutation instance. -/
def c8A : VarStats := ⟨"a", 2, 1, 1, 2, 19 / 20⟩

/-- First treatment stats for the permutation instance. -/
def c8B : VarStats := ⟨"b", 2, 2, 2, 4, 19 / 20⟩

/-- Second treatment stats for the permutation instance. -/
def c8C : VarStats := ⟨"c", 2, 3, 3, 6, 19 / 20⟩

/-- The corrected metrics table with the control variant listed first. -/
def c8Out1 : List TtestRow :=
  multipleComparisonsCorrection c8Fns
    ((ttestEvaluation c8Fns [⟨1, "m", [c8A, c8B, c8C]⟩] "a").getD []) 3 1
    (19 / 20)

/-- The corrected metrics table with the same data but the control variant
listed second. -/
def c8Out2 : List TtestRow :=
  multipleComparisonsCorrection c8Fns
    ((ttestEvaluation c8Fns [⟨1, "m", [c8B, c8A, c8C]⟩] "a").getD []) 3 1
    (19 / 20)

/-- A check that evaluates successfully. -/
def c9Good : CheckE :=
  { id := 1, name := "SRM", goals := [],
    eval := fun _ _ => .ok [⟨1, "SRM", "p_value", 1 / 2, ""⟩] }

/-- A check that raises during evaluation. -/
def c9Bad : CheckE :=
  { id := 2, name := "bad", goals := [], eval := fun _ _ => .error "boom" }

/-- An experiment with no metrics, one good and one failing check. -/
def c9Exp : ExperimentE :=
  { id := "e", controlVariant := "a", unitType := "u", metrics := [],
    checks := [c9Good, c9Bad], dateFrom := none, dateTo := none,
    dateFor := 0, confidenceLevel := 19 / 20, variants := some ["a"] }

/-- An experiment with the explicit variant list `["a"]` and one metric. -/
def c10Exp : ExperimentE :=
  { id := "e", controlVariant := "a", unitType := "u",
    metrics := [{ id := 1, name := "m",
                  nominator := .goal (exposureGoal "u"),
                  denominator := .goal (exposureGoal "u"),
                  denominatorStr := "count(u.global.exposure)",
                  isSimple := false, minimumEffect := none }],
    checks := [], dateFrom := none, dateTo := none, dateFor := 0,
    confidenceLevel := 19 / 20, variants := some ["a"] }

/-- A goal row of variant `a` for the explicit-variants instance. -/
def c10RowA : GoalRow :=
  { expId := "e", variant := "a", unitType := "u", aggType := "global",
    goal := "exposure", dims := [], count := 7, sumSqrCount := 7,
    sumValue := 7, sumSqrValue := 7, countUnique := 7 }

/-- A goal row of a variant outside the explicit variant list. -/
def c10RowZ : GoalRow :=
  { expId := "e", variant := "z", unitType := "u", aggType := "global",
    goal := "exposure", dims := [], count := 100, sumSqrCount := 100,
    sumValue := 100, sumSqrValue := 100, countUnique := 100 }

/-! ## Claims -/

/-- C4: for every pair of subexpressions and every goal table, `a - b` and
`a ~ b` evaluate to the same value vector via `evaluate_agg` (both subtract
elementwise), and differ only in `evaluate_sqr`: `-` subtracts the
squared-value vectors while `~` adds them. -/
theorem c4_sub_tilda (a b : Expr) (rows : List GoalRow) (v : String) :
    evalAgg (.sub a b) rows v = evalAgg (.tilda a b) rows v ∧
    evalSqr (.sub a b) rows v = evalSqr a rows v - evalSqr b rows v ∧
    evalSqr (.tilda a b) rows v = evalSqr a rows v + evalSqr b rows v :=
  ⟨rfl, rfl, rfl⟩

/-- C3 (amended): a row is selected by `eval_agg` iff its `unit_type`,
`agg_type` and `goal` match and every dimension column is string-equal to
the goal's *encoded* predicate (the bare literal for `=`, `"^" ++ literal`
for `=^`, and `operator ++ literal` for the other operators) — the
comparison operators are not interpreted; for `=` predicates this is
equality with the literal, as the claim says.  Selected rows are grouped by
variant and the `column` field summed. -/
theorem c3_dimension_mask_encoded_equality (g : EpGoal) (r : GoalRow)
    (preds : List (String × String × String))
    (hdims : g.dimensionToValue =
      preds.map (fun p => (p.1, dimensionValueEncode p.2.1 p.2.2))) :
    (rowMatchesGoal g r = true ↔
      (r.unitType = g.unitType ∧ r.aggType = g.aggType ∧ r.goal = g.goal ∧
        ∀ p ∈ preds, lookupDim r p.1 = dimensionValueEncode p.2.1 p.2.2)) ∧
    (∀ p ∈ preds, p.2.1 = "=" →
      dimensionValueEncode p.2.1 p.2.2 = p.2.2) ∧
    (∀ rows v, evalAgg (.goal g) rows v =
      ((rows.filter (fun row => rowMatchesGoal g row && row.variant == v)).map
        (fun row => rowField row g.column)).sum) := by
  refine ⟨?_, ?_, fun rows v => rfl⟩
  · simp only [rowMatchesGoal, dimensionMask, hdims, Bool.and_eq_true,
      beq_iff_eq, List.all_eq_true, List.forall_mem_map]
    constructor
    · rintro ⟨⟨⟨h1, h2⟩, h3⟩, h4⟩
      exact ⟨h1, h2, h3, h4⟩
    · rintro ⟨h1, h2, h3, h4⟩
      exact ⟨⟨⟨h1, h2⟩, h3⟩, h4⟩
  · intro p _ hop
    simp [dimensionValueEncode, hop]

/-- C3 (counterexample): the goal `count(u.unit.g(product=^pro))` and a row
with `product = "product_1"`: the spec's prefix predicate matches the row,
but the source's dimension mask (string equality with the encoded value
`"^pro"`) rejects it, so the row contributes nothing. -/
theorem c3_dimension_operator_counterexample :
    specDimPredicate "=^" "pro" (lookupDim c3Row "product") = true ∧
    rowMatchesGoal c3Goal c3Row = false ∧
    evalAgg (.goal c3Goal) [c3Row] "a" = 0 := by
  refine ⟨?_, ?_, ?_⟩
  · simp [specDimPredicate, lookupDim, c3Row, List.isPrefixOf]
  · simp [rowMatchesGoal, dimensionMask, c3Goal, c3Row, lookupDim,
      dimensionValueEncode]
  · simp [evalAgg, goalColumnSum, rowMatchesGoal, dimensionMask, c3Goal,
      c3Row, lookupDim, dimensionValueEncode]

/-- C7 (code behaviour at the failing input): `minimum_effect = 0` passes
the guard `minimum_effect < 0` and the function returns a (non-finite)
value instead of raising, although its own error message says
"minimum_effect must be greater than zero"; negative `minimum_effect`,
`n_variants < 2` and a Bernoulli mean outside [0, 1] do raise. -/
theorem c7_zero_minimum_effect_returns :
    requiredSampleSizePerVariant fnsId 2 0 1 1 none (19 / 20) (4 / 5) =
      .ok none ∧
    exceptIsOk (requiredSampleSizePerVariant fnsId 2 (-(1 / 10)) 1 1 none
      (19 / 20) (4 / 5)) = false ∧
    exceptIsOk (requiredSampleSizePerVariant fnsId 1 (1 / 10) 1 1 none
      (19 / 20) (4 / 5)) = false ∧
    exceptIsOk (requiredSampleSizePerVariantBernoulli fnsId 2 (1 / 10) (3 / 2)
      (19 / 20) (4 / 5)) = false := by
  refine ⟨?_, ?_, ?_, ?_⟩ <;>
    norm_num [requiredSampleSizePerVariant,
      requiredSampleSizePerVariantBernoulli, exceptIsOk]

/-- C9: a check raising during evaluation contributes no rows while the
other checks' rows are kept; a check list whose every member raises yields
the empty checks table; and checks never abort the evaluation — whenever
the metrics computation succeeds, the evaluation returns all three tables,
with the checks and exposures computed from the filled table regardless of
check failures. -/
theorem c9_check_isolation (filled : List GoalRow)
    (expId controlVariant : String) (cs1 cs2 : List CheckE) (bad : CheckE)
    (e : String) (hbad : bad.eval filled controlVariant = .error e) :
    evaluateChecks (cs1 ++ bad :: cs2) expId controlVariant filled =
      evaluateChecks (cs1 ++ cs2) expId controlVariant filled ∧
    (∀ cs : List CheckE,
      (∀ c ∈ cs, exceptIsOk (c.eval filled controlVariant) = false) →
      evaluateChecks cs expId controlVariant filled = []) ∧
    (∀ (fns : StatFns) (exp : ExperimentE) (goals : List GoalRow)
        (ms : List MetricOutRow),
      evaluateMetrics fns exp (fixMissingAgg exp goals) = .ok ms →
      evaluateAgg fns exp goals = .ok
        { metrics := ms,
          checks := evaluateChecks exp.checks exp.id exp.controlVariant
            (fixMissingAgg exp goals),
          exposures := evaluateExposures (fixMissingAgg exp goals) exp.id
            exp.unitType }) := by
  refine ⟨?_, ?_, ?_⟩
  · simp [evaluateChecks, hbad]
  · intro cs h
    induction cs with
    | nil => rfl
    | cons c rest ih =>
      have hc := h c (by simp)
      cases hev : c.eval filled controlVariant with
      | ok rs => rw [hev] at hc; simp [exceptIsOk] at hc
      | error e2 =>
        simp only [evaluateChecks, List.flatMap_cons, hev,
          List.nil_append]
        exact ih (fun c hcmem => h c (List.mem_cons_of_mem _ hcmem))
  · intro fns exp goals ms hms
    simp only [evaluateAgg]
    rw [hms]

/-- C9 (witness): a failing check among succeeding ones is omitted, an
all-failing check list yields the empty table, and the evaluation of an
experiment containing a failing check still returns all three tables. -/
theorem c9_check_isolation_witness :
    evaluateChecks [c9Good, c9Bad] "e" "a" [] =
      evaluateChecks [c9Good] "e" "a" [] ∧
    evaluateChecks [c9Bad] "e" "a" [] = [] ∧
    evaluateAgg fnsId c9Exp [] = .ok
      { metrics := [],
        checks := evaluateChecks c9Exp.checks c9Exp.id c9Exp.controlVariant
          (fixMissingAgg c9Exp []),
        exposures := evaluateExposures (fixMissingAgg c9Exp []) c9Exp.id
          c9Exp.unitType } := by
  have h := c9_check_isolation [] "e" "a" [c9Good] [] c9Bad "boom" rfl
  refine ⟨h.1, h.2.1 [c9Bad] ?_, h.2.2 fnsId c9Exp [] [] ?_⟩
  · intro c hc
    simp only [List.mem_singleton] at hc
    subst hc
    rfl
  · simp [evaluateMetrics, c9Exp]

/-- C10: with an explicit variants list, rows of variants outside that list
have no effect: two inputs with the same in-list rows evaluate to identical
metrics, checks and exposures tables. -/
theorem c10_foreign_variant_rows_ignored (fns : StatFns) (exp : ExperimentE)
    (vs : List String) (hvs : exp.variants = some vs) (g g' : List GoalRow)
    (hfilter : g.filter (fun r => vs.contains r.variant) =
      g'.filter (fun r => vs.contains r.variant)) :
    evaluateAgg fns exp g = evaluateAgg fns exp g' := by
  have hfix : fixMissingAgg exp g = fixMissingAgg exp g' := by
    unfold fixMissingAgg experimentVariants
    rw [hvs]
    simp only
    rw [hfilter]
  unfold evaluateAgg
  rw [hfix]

/-- C10 (witness): adding a row of the foreign variant `z` leaves the whole
evaluation unchanged. -/
theorem c10_foreign_variant_rows_ignored_witness :
    evaluateAgg fnsId c10Exp [c10RowA] =
      evaluateAgg fnsId c10Exp [c10RowA, c10RowZ] := by
  apply c10_foreign_variant_rows_ignored fnsId c10Exp ["a"] rfl
  rfl

/-- C3 (witness): the amended selection rule at the concrete prefix goal
and row. -/
theorem c3_dimension_mask_encoded_equality_witness :
    (rowMatchesGoal c3Goal c3Row = true ↔
      (c3Row.unitType = c3Goal.unitType ∧ c3Row.aggType = c3Goal.aggType ∧
        c3Row.goal = c3Goal.goal ∧
        ∀ p ∈ [("product", "=^", "pro")],
          lookupDim c3Row p.1 = dimensionValueEncode p.2.1 p.2.2)) ∧
    (∀ p ∈ [("product", "=^", "pro")], p.2.1 = "=" →
      dimensionValueEncode p.2.1 p.2.2 = p.2.2) ∧
    (∀ rows v, evalAgg (.goal c3Goal) rows v =
      ((rows.filter (fun row =>
        rowMatchesGoal c3Goal row && row.variant == v)).map
        (fun row => rowField row c3Goal.column)).sum) :=
  c3_dimension_mask_encoded_equality c3Goal c3Row [("product", "=^", "pro")] rfl

/-- List lookup with a default commutes with `map` below the length. -/
theorem getD_map {α β : Type _} (f : α → β) (l : List α) (j : ℕ) (d : β)
    (d' : α) (h : j < l.length) : (l.map f).getD j d = f (l.getD j d') := by
  rw [List.getD_eq_getElem _ _ (by simpa using h),
    List.getD_eq_getElem _ _ h, List.getElem_map]

/-- C1 (amended): in the t-test evaluation the control-variant row (found
by name) is emitted with `diff = 0`, `test_stat = 0` and `p_value = 1`
(given nondegenerate control data), but its confidence interval is
`rel_se * t.ppf(cl + (1-cl)/2, df)` — the control's own standard error
times the t-quantile — which is not 0 in general. -/
theorem c1_control_row_statistics (fns : StatFns) (m : MetricStats)
    (controlVariant : String) (c : VarStats) (j : ℕ)
    (hfind : m.rows.find? (fun s => s.variant == controlVariant) = some c)
    (hj : j < m.rows.length) (hjc : m.rows.getD j c = c)
    (hmean : c.mean ≠ 0) (hse : relSe fns c c ≠ 0)
    (hcdf : fns.tCdf 0 (welchDf c c) = 1 / 2) :
    ∃ out, ttestMetric fns controlVariant m = some out ∧
      (out.getD j rowDefault).diff = 0 ∧
      (out.getD j rowDefault).testStat = 0 ∧
      (out.getD j rowDefault).pValue = 1 ∧
      (out.getD j rowDefault).confidenceInterval =
        relSe fns c c *
          fns.tPpf (c.confLevel + (1 - c.confLevel) / 2) (welchDf c c) := by
  refine ⟨m.rows.map (ttestVariantRow fns m.id m.name c), ?_, ?_, ?_, ?_, ?_⟩
  · simp [ttestMetric, hfind]
  all_goals rw [getD_map _ _ _ _ c hj, hjc]
  · show (c.mean - c.mean) / |c.mean| = 0
    simp
  · show (c.mean - c.mean) / |c.mean| / relSe fns c c = 0
    simp
  · show 2 * (1 - fns.tCdf |(c.mean - c.mean) / |c.mean| / relSe fns c c|
      (welchDf c c)) = 1
    have h0 : (c.mean - c.mean) / |c.mean| / relSe fns c c = 0 := by simp
    rw [h0, abs_zero, hcdf]
    norm_num
  · rfl

/-- C1 (witness): the amended control-row statement at a concrete
one-variant metric (`count=2, mean=1, std=1`). -/
theorem c1_control_row_statistics_witness :
    ∃ out,
      ttestMetric c1Fns "a" ⟨1, "m", [⟨"a", 2, 1, 1, 2, 19 / 20⟩]⟩ = some out ∧
      (out.getD 0 rowDefault).diff = 0 ∧
      (out.getD 0 rowDefault).testStat = 0 ∧
      (out.getD 0 rowDefault).pValue = 1 ∧
      (out.getD 0 rowDefault).confidenceInterval =
        relSe c1Fns ⟨"a", 2, 1, 1, 2, 19 / 20⟩ ⟨"a", 2, 1, 1, 2, 19 / 20⟩ *
          c1Fns.tPpf (19 / 20 + (1 - 19 / 20) / 2)
            (welchDf ⟨"a", 2, 1, 1, 2, 19 / 20⟩ ⟨"a", 2, 1, 1, 2, 19 / 20⟩) := by
  apply c1_control_row_statistics c1Fns ⟨1, "m", [⟨"a", 2, 1, 1, 2, 19 / 20⟩]⟩
    "a" ⟨"a", 2, 1, 1, 2, 19 / 20⟩ 0 rfl (by norm_num) rfl (by norm_num)
  · norm_num [relSe, c1Fns]
  · norm_num [c1Fns]

/-- C1 (counterexample): with control `a` (`count=2, mean=1, std=1`,
`confidence_level=0.95`) and `t.ppf` agreeing with the real
`t.ppf(0.975, 2) ≈ 4.3`, the control row of the t-test output carries
`diff = 0` but a confidence interval of `4.3`, not `0`. -/
theorem c1_control_conf_int_counterexample :
    (((ttestMetric c1Fns "a" c1Metric).getD []).getD 0 rowDefault).variant
        = "a" ∧
    (((ttestMetric c1Fns "a" c1Metric).getD []).getD 0 rowDefault).diff = 0 ∧
    (((ttestMetric c1Fns "a" c1Metric).getD []).getD 0
        rowDefault).confidenceInterval = 43 / 10 ∧
    (43 / 10 : ℚ) ≠ 0 := by
  refine ⟨?_, ?_, ?_, by norm_num⟩ <;>
    norm_num [ttestMetric, c1Metric, c1Fns, ttestVariantRow, relSe, welchDf,
      npRound, npTrunc, roundHalfEven, List.find?]

/-- Inserting into a sorted index list is a permutation of consing. -/
theorem insertIdxBy_perm (pvals : List ℚ) (i : ℕ) (l : List ℕ) :
    (insertIdxBy pvals i l).Perm (i :: l) := by
  induction l with
  | nil => simp [insertIdxBy]
  | cons j rest ih =>
    simp only [insertIdxBy]
    split
    · exact List.Perm.refl _
    · exact (ih.cons j).trans (List.Perm.swap i j rest)

/-- The argsort is a permutation of the index range. -/
theorem argsort_perm (pvals : List ℚ) :
    (argsort pvals).Perm (List.range pvals.length) := by
  rw [argsort]
  generalize List.range pvals.length = l
  induction l with
  | nil => exact List.Perm.refl _
  | cons x xs ih =>
    exact (insertIdxBy_perm pvals x _).trans (ih.cons x)

/-- The position returned by `posOf` is in range and looks the element
back up. -/
theorem posOf_spec {i : ℕ} {l : List ℕ} (h : i ∈ l) :
    posOf i l < l.length ∧ l.getD (posOf i l) 0 = i := by
  induction l with
  | nil => simp at h
  | cons j rest ih =>
    by_cases hij : i = j
    · subst hij
      simp [posOf]
    · rcases List.mem_cons.mp h with h1 | h2
      · exact absurd h1 hij
      · obtain ⟨ih1, ih2⟩ := ih h2
        constructor
        · simp only [posOf, if_neg hij, List.length_cons]
          omega
        · simp only [posOf, if_neg hij, List.getD_cons_succ]
          exact ih2

/-- A left fold by `max` dominates its initial value. -/
theorem le_foldl_max_init (l : List ℚ) (a : ℚ) : a ≤ l.foldl max a := by
  induction l generalizing a with
  | nil => exact le_refl a
  | cons y ys ih => exact le_trans (le_max_left a y) (ih (max a y))

/-- A left fold by `max` dominates every element. -/
theorem le_foldl_max (l : List ℚ) (a x : ℚ) (hx : x ∈ l) :
    x ≤ l.foldl max a := by
  induction l generalizing a with
  | nil => simp at hx
  | cons y ys ih =>
    rcases List.mem_cons.mp hx with h1 | h2
    · subst h1
      exact le_trans (le_max_right a x) (le_foldl_max_init ys (max a x))
    · exact ih (max a y) h2

/-- Lookup with default into `List.range`. -/
theorem getD_range {j m : ℕ} (h : j < m) : (List.range m).getD j 0 = j := by
  rw [List.getD_eq_getElem _ _ (by simpa using h), List.getElem_range]

/-- The Holm adjustment never decreases a p-value (for p-values in
`[0, 1]`): each adjusted value dominates its raw value. -/
theorem holmAdjust_ge (pvals : List ℚ) (j : ℕ) (hj : j < pvals.length)
    (hp : ∀ p ∈ pvals, 0 ≤ p ∧ p ≤ 1) :
    pvals.getD j 0 ≤ (holmAdjust pvals).getD j 0 := by
  have hperm := argsort_perm pvals
  have hlen : (argsort pvals).length = pvals.length :=
    hperm.length_eq.trans (List.length_range _)
  have hjmem : j ∈ argsort pvals := hperm.mem_iff.mpr (List.mem_range.mpr hj)
  obtain ⟨hrlt, hgr⟩ := posOf_spec hjmem
  set r := posOf j (argsort pvals) with hrdef
  have hrm : r < pvals.length := hlen ▸ hrlt
  have h1 : (holmAdjust pvals).getD j 0 = (holmClipped pvals).getD r 0 := by
    rw [holmAdjust, getD_map _ _ _ _ 0 (by simpa using hj), getD_range hj]
  have h2 : (holmClipped pvals).getD r 0 =
      (if ((holmRaw pvals).take (r + 1)).foldl max
          ((holmRaw pvals).getD 0 0) > 1 then 1
       else ((holmRaw pvals).take (r + 1)).foldl max
          ((holmRaw pvals).getD 0 0)) := by
    rw [holmClipped, getD_map _ _ _ _ 0 (by simpa using hrm),
      getD_map _ _ _ _ 0 (by simpa using hrm), getD_range hrm]
  have hs : (holmSorted pvals).getD r 0 = pvals.getD j 0 := by
    rw [holmSorted, getD_map _ _ _ _ 0 hrlt, hgr]
  have hraw : (holmRaw pvals).getD r 0 =
      ((pvals.length - r : ℕ) : ℚ) * pvals.getD j 0 := by
    rw [holmRaw, getD_map _ _ _ _ 0 (by simpa using hrm), getD_range hrm, hs]
  have hmemp : pvals.getD j 0 ∈ pvals := by
    rw [List.getD_eq_getElem _ _ hj]
    exact List.getElem_mem hj
  obtain ⟨hp0, hp1⟩ := hp _ hmemp
  have h3 : pvals.getD j 0 ≤ (holmRaw pvals).getD r 0 := by
    rw [hraw]
    have hone : (1 : ℚ) ≤ ((pvals.length - r : ℕ) : ℚ) := by
      have : 1 ≤ pvals.length - r := by omega
      exact_mod_cast this
    exact le_mul_of_one_le_left hp0 hone
  have hrawlen : (holmRaw pvals).length = pvals.length := by simp [holmRaw]
  have hr' : r < ((holmRaw pvals).take (r + 1)).length := by
    simp only [List.length_take, hrawlen]
    omega
  have hmem : (holmRaw pvals).getD r 0 ∈ (holmRaw pvals).take (r + 1) := by
    rw [List.getD_eq_getElem _ _ (by simpa [hrawlen] using hrm)]
    rw [← List.getElem_take (holmRaw pvals) (h := hr')]
    exact List.getElem_mem hr'
  have h4 : (holmRaw pvals).getD r 0 ≤
      ((holmRaw pvals).take (r + 1)).foldl max ((holmRaw pvals).getD 0 0) :=
    le_foldl_max _ _ _ hmem
  rw [h1, h2]
  split
  · exact hp1
  · exact h3.trans h4

/-- C2 (amended): in the multiple-comparisons correction each treatment
row gets `alpha_adj = (raw_p / adj_p) * alpha` (the ratio is `raw/adj`,
not `adj/raw`; it is taken as 1 when both vanish), and the new confidence
interval is `se * t.ppf(1 - alpha_adj + alpha_adj/2, df)`; since
`adj_p ≥ raw_p` this interval is never narrower than the unadjusted
`se * t.ppf(1 - alpha + alpha/2, df)`. -/
theorem c2_holm_ci_adjustment (fns : StatFns) (alpha : ℚ)
    (block : List TtestRow) (j : ℕ) (hj : j < block.length)
    (hmono : ∀ f a b : ℚ, a ≤ b → fns.tPpf a f ≤ fns.tPpf b f)
    (hp : ∀ p ∈ block.map (fun r => r.pValue), 0 ≤ p ∧ p ≤ 1)
    (halpha : 0 ≤ alpha)
    (hse : 0 ≤ (block.getD j rowDefault).stdErr)
    (hci : (block.getD j rowDefault).confidenceInterval =
      (block.getD j rowDefault).stdErr *
        fns.tPpf (1 - alpha + alpha / 2)
          (block.getD j rowDefault).degreesOfFreedom) :
    ((mccBlock fns alpha block).getD j rowDefault).pValue =
      (holmAdjust (block.map (fun r => r.pValue))).getD j 0 ∧
    ((mccBlock fns alpha block).getD j rowDefault).confidenceInterval =
      (block.getD j rowDefault).stdErr *
        fns.tPpf (1 - mccAdjAlpha block alpha j + mccAdjAlpha block alpha j / 2)
          (block.getD j rowDefault).degreesOfFreedom ∧
    (block.getD j rowDefault).confidenceInterval ≤
      ((mccBlock fns alpha block).getD j rowDefault).confidenceInterval := by
  have hout : (mccBlock fns alpha block).getD j rowDefault =
      { block.getD j rowDefault with
          pValue := (holmAdjust (block.map (fun r => r.pValue))).getD j 0,
          confidenceInterval := (block.getD j rowDefault).stdErr *
            fns.tPpf
              (1 - mccAdjAlpha block alpha j + mccAdjAlpha block alpha j / 2)
              (block.getD j rowDefault).degreesOfFreedom } := by
    simp only [mccBlock, mccAdjAlpha]
    rw [getD_map _ _ _ _ 0 (by simpa using hj), getD_range hj]
  refine ⟨by rw [hout], by rw [hout], ?_⟩
  rw [hout]
  show (block.getD j rowDefault).confidenceInterval ≤
    (block.getD j rowDefault).stdErr *
      fns.tPpf (1 - mccAdjAlpha block alpha j + mccAdjAlpha block alpha j / 2)
        (block.getD j rowDefault).degreesOfFreedom
  have hpmem : (block.getD j rowDefault).pValue ∈
      block.map (fun r => r.pValue) := by
    rw [List.getD_eq_getElem _ _ hj]
    exact List.mem_map.mpr ⟨_, List.getElem_mem hj, rfl⟩
  obtain ⟨hp0, _⟩ := hp _ hpmem
  have hpj : (block.map (fun r => r.pValue)).getD j 0 =
      (block.getD j rowDefault).pValue :=
    getD_map _ _ _ _ rowDefault hj
  have hple : (block.getD j rowDefault).pValue ≤
      (holmAdjust (block.map (fun r => r.pValue))).getD j 0 := by
    rw [← hpj]
    exact holmAdjust_ge _ j (by simpa using hj) hp
  have haj : mccAdjAlpha block alpha j ≤ alpha := by
    rw [mccAdjAlpha, hpj]
    by_cases ha : (holmAdjust (block.map (fun r => r.pValue))).getD j 0 = 0
    · have hp00 : (block.getD j rowDefault).pValue = 0 :=
        le_antisymm (ha ▸ hple) hp0
      rw [ha, hp00]
      simp [npNanToNumDiv]
    · have hapos : 0 <
          (holmAdjust (block.map (fun r => r.pValue))).getD j 0 :=
        (hp0.trans hple).lt_of_ne (Ne.symm ha)
      have hratio1 : npNanToNumDiv (block.getD j rowDefault).pValue
          ((holmAdjust (block.map (fun r => r.pValue))).getD j 0) ≤ 1 := by
        rw [npNanToNumDiv, if_neg ha]
        exact (div_le_one hapos).mpr hple
      exact mul_le_of_le_one_left halpha hratio1
  have hquant : fns.tPpf (1 - alpha + alpha / 2)
        (block.getD j rowDefault).degreesOfFreedom ≤
      fns.tPpf (1 - mccAdjAlpha block alpha j + mccAdjAlpha block alpha j / 2)
        (block.getD j rowDefault).degreesOfFreedom :=
    hmono _ _ _ (by linarith)
  rw [hci]
  exact mul_le_mul_of_nonneg_left hquant hse

/-- C2 (witness): the amended correction statement at a two-treatment
block with raw p-values `0.01` and `0.04` and `alpha = 0.05`. -/
theorem c2_holm_ci_adjustment_witness :
    ((mccBlock c2Fns (1 / 20) c2Block).getD 0 rowDefault).pValue =
      (holmAdjust (c2Block.map (fun r => r.pValue))).getD 0 0 ∧
    ((mccBlock c2Fns (1 / 20) c2Block).getD 0 rowDefault).confidenceInterval =
      (c2Block.getD 0 rowDefault).stdErr *
        c2Fns.tPpf
          (1 - mccAdjAlpha c2Block (1 / 20) 0 + mccAdjAlpha c2Block (1 / 20) 0 / 2)
          (c2Block.getD 0 rowDefault).degreesOfFreedom ∧
    (c2Block.getD 0 rowDefault).confidenceInterval ≤
      ((mccBlock c2Fns (1 / 20) c2Block).getD 0 rowDefault).confidenceInterval := by
  apply c2_holm_ci_adjustment c2Fns (1 / 20) c2Block 0 (by norm_num [c2Block])
    (fun f a b hab => hab) ?_ (by norm_num) (by norm_num [c2Block])
    (by norm_num [c2Block, c2Fns])
  intro p hpmem
  simp only [c2Block, List.map_cons, List.map_nil, List.mem_cons,
    List.not_mem_nil, or_false] at hpmem
  rcases hpmem with h | h <;> rw [h] <;> norm_num

/-- C2 (counterexample): at raw p-values `(0.01, 0.04)` with
`alpha = 0.05` the code computes `adj_ratio = raw/adj = 1/2`, giving
`alpha_adj = 1/40` and confidence interval `se * t.ppf(1 - 1/80) = 79/80`
under `t.ppf = id`; the claim's formula `alpha_adj = (adj/raw)·alpha =
1/10` would give `se * t.ppf(1 - 1/20) = 19/20 ≠ 79/80`. -/
theorem c2_adjusted_alpha_counterexample :
    ((mccBlock c2Fns (1 / 20) c2Block).getD 0 rowDefault).pValue = 1 / 50 ∧
    ((mccBlock c2Fns (1 / 20) c2Block).getD 0
        rowDefault).confidenceInterval = 79 / 80 ∧
    (c2Block.getD 0 rowDefault).stdErr *
        c2Fns.tPpf (1 - ((1 / 50 : ℚ) / (1 / 100) * (1 / 20)) / 2)
          (c2Block.getD 0 rowDefault).degreesOfFreedom = 19 / 20 ∧
    ((79 : ℚ) / 80) ≠ 19 / 20 := by
  refine ⟨?_, ?_, ?_, by norm_num⟩ <;>
    norm_num [mccBlock, c2Block, c2Fns, holmAdjust, holmClipped, holmRaw,
      holmSorted, argsort, insertIdxBy, posOf, npNanToNumDiv,
      List.range_succ]

/-- Rounding half to even sends every value in `(9999.5, 10000]` to
`10000`. -/
theorem roundHalfEven_top {r : ℚ} (h1 : 49998 / 5 ≤ r) (h2 : r ≤ 10000) :
    roundHalfEven r = 10000 := by
  have hf1 : (9999 : ℤ) ≤ ⌊r⌋ := by
    apply Int.le_floor.mpr
    push_cast
    linarith
  have hf2 : ⌊r⌋ ≤ 10000 := by
    have hle : (⌊r⌋ : ℚ) ≤ 10000 := le_trans (Int.floor_le r) h2
    exact_mod_cast hle
  rcases lt_or_eq_of_le hf2 with hlt | heq
  · have h9999 : ⌊r⌋ = 9999 := by omega
    have hcast : ((⌊r⌋ : ℤ) : ℚ) = 9999 := by exact_mod_cast h9999
    simp only [roundHalfEven]
    rw [if_neg (by rw [hcast]; linarith), if_pos (by rw [hcast]; linarith)]
    omega
  · have hfloor : ((10000 : ℤ) : ℚ) ≤ r := by
      rw [← heq]
      exact Int.floor_le r
    have hr : r = 10000 := le_antisymm h2 (by exact_mod_cast hfloor)
    subst hr
    simp only [roundHalfEven]
    norm_num

/-- C6 (amended): at the end of the test (`actual_day = total_length`) the
O'Brien–Fleming spending function returns the confidence level rounded
half-to-even to 4 decimal places — equal to the confidence level itself
whenever it has at most 4 decimal places, as in all the spec's examples:
`obf(0.95, 14, 14) = 0.95`, `obf(0.95, 28, 28) = 0.95`, and
`obf(0.95, 14, 1) = 1.00`.  The hypotheses are standard facts of the real
normal cdf/ppf and square root at the points used. -/
theorem c6_obf_spending_identity (fns : StatFns)
    (hs1 : fns.sqrt 1 = 1)
    (hppf : 3 / 2 ≤ fns.normPpf (39 / 40))
    (hsq : 0 < fns.sqrt (1 / 14) ∧ fns.sqrt (1 / 14) ≤ 1 / 3)
    (htail : ∀ x : ℚ, 9 / 2 ≤ x →
      99998 / 100000 ≤ fns.normCdf x ∧ fns.normCdf x ≤ 1)
    (hinv95 : fns.normCdf (fns.normPpf (39 / 40)) = 39 / 40) :
    (∀ cl T : ℚ, T ≠ 0 →
      fns.normCdf (fns.normPpf (1 - (1 - cl) / 2)) = 1 - (1 - cl) / 2 →
      obfAlphaSpendingFunction fns cl T T = npRound cl 4) ∧
    obfAlphaSpendingFunction fns (19 / 20) 14 14 = 19 / 20 ∧
    obfAlphaSpendingFunction fns (19 / 20) 28 28 = 19 / 20 ∧
    obfAlphaSpendingFunction fns (19 / 20) 14 1 = 1 := by
  have hgen : ∀ cl T : ℚ, T ≠ 0 →
      fns.normCdf (fns.normPpf (1 - (1 - cl) / 2)) = 1 - (1 - cl) / 2 →
      obfAlphaSpendingFunction fns cl T T = npRound cl 4 := by
    intro cl T hT hinv
    simp only [obfAlphaSpendingFunction]
    rw [div_self hT, hs1, div_one, hinv]
    congr 1
    ring
  have hround95 : npRound (19 / 20) 4 = 19 / 20 := by
    have hfl : (⌊(19 / 20 : ℚ) * 10 ^ 4⌋ : ℤ) = 9500 := by norm_num
    simp only [npRound, roundHalfEven, hfl]
    norm_num
  have hinv95' : fns.normCdf (fns.normPpf (1 - (1 - 19 / 20) / 2)) =
      1 - (1 - 19 / 20) / 2 := by
    have h39 : (1 : ℚ) - (1 - 19 / 20) / 2 = 39 / 40 := by norm_num
    rw [h39, hinv95]
  refine ⟨hgen, ?_, ?_, ?_⟩
  · rw [hgen (19 / 20) 14 (by norm_num) hinv95', hround95]
  · rw [hgen (19 / 20) 28 (by norm_num) hinv95', hround95]
  · simp only [obfAlphaSpendingFunction]
    have ht : (1 : ℚ) / 14 = 1 / 14 := rfl
    have hq39 : (1 : ℚ) - (1 - 19 / 20) / 2 = 39 / 40 := by norm_num
    rw [hq39]
    set q := fns.normPpf (39 / 40) with hqdef
    set s := fns.sqrt (1 / 14) with hsdef
    have harg : 9 / 2 ≤ q / s := by
      have hq0 : (0 : ℚ) ≤ q := by linarith
      have hstep : q / (1 / 3) ≤ q / s :=
        div_le_div_of_nonneg_left hq0 hsq.1 hsq.2
      have hq3 : q / (1 / 3) = 3 * q := by ring
      linarith [hstep, hq3 ▸ hstep]
    obtain ⟨hc1, hc2⟩ := htail (q / s) harg
    have hx1 : 49998 / 5 ≤ (1 - (2 - 2 * fns.normCdf (q / s))) * 10 ^ 4 := by
      nlinarith
    have hx2 : (1 - (2 - 2 * fns.normCdf (q / s))) * 10 ^ 4 ≤ 10000 := by
      nlinarith
    rw [npRound, roundHalfEven_top hx1 hx2]
    norm_num

/-- C6 (witness): the amended spending identity at the concrete normal
cdf/ppf/sqrt instance `c6Fns`. -/
theorem c6_obf_spending_identity_witness :
    obfAlphaSpendingFunction c6Fns (9 / 10) 7 7 = npRound (9 / 10) 4 ∧
    obfAlphaSpendingFunction c6Fns (19 / 20) 14 14 = 19 / 20 ∧
    obfAlphaSpendingFunction c6Fns (19 / 20) 28 28 = 19 / 20 ∧
    obfAlphaSpendingFunction c6Fns (19 / 20) 14 1 = 1 := by
  have htail : ∀ x : ℚ, 9 / 2 ≤ x →
      99998 / 100000 ≤ c6Fns.normCdf x ∧ c6Fns.normCdf x ≤ 1 := by
    intro x hx
    have hx2 : x ≠ 2 := by intro h; rw [h] at hx; norm_num at hx
    simp only [c6Fns, if_neg hx2, if_pos hx]
    norm_num
  have h := c6_obf_spending_identity c6Fns (by norm_num [c6Fns])
    (by norm_num [c6Fns]) ⟨by norm_num [c6Fns], by norm_num [c6Fns]⟩ htail
    (by norm_num [c6Fns])
  exact ⟨h.1 (9 / 10) 7 (by norm_num) (by norm_num [c6Fns]), h.2.1, h.2.2.1,
    h.2.2.2⟩

/-- C6 (counterexample): for a confidence level with more than 4 decimal
places, `0.12345`, the spending function at the end of the test returns
the value rounded half-to-even to 4 decimals, `0.1234`, not the
confidence level itself. -/
theorem c6_round4_counterexample :
    obfAlphaSpendingFunction c6Fns (2469 / 20000) 14 14 = 617 / 5000 ∧
    ((617 : ℚ) / 5000) ≠ 2469 / 20000 := by
  constructor
  · have hfl : (⌊(2469 / 20000 : ℚ) * 10 ^ 4⌋ : ℤ) = 1234 := by
      norm_num [Int.floor_eq_iff]
    norm_num [obfAlphaSpendingFunction, c6Fns, npRound, roundHalfEven, hfl,
      Int.even_iff]
  · norm_num

/-- When filtering leaves exactly one element, `find?` returns it. -/
theorem find?_of_filter_singleton {α : Type _} {p : α → Bool} {l : List α}
    {c : α} (h : l.filter p = [c]) : l.find? p = some c := by
  induction l with
  | nil => simp at h
  | cons x xs ih =>
    by_cases hx : p x
    · rw [List.filter_cons_of_pos hx] at h
      rw [List.find?_cons_of_pos _ hx]
      simp only [List.cons.injEq] at h
      rw [h.1]
    · rw [List.filter_cons_of_neg (by simpa using hx)] at h
      rw [List.find?_cons_of_neg _ (by simpa using hx)]
      exact ih h

/-- C8 (amended): `ttest_evaluation` finds the control variant by
`exp_variant_id == control_variant`, so when exactly one row carries the
control name, every variant's t-test row is a function of its own
statistics and the control's, for any permutation of the variant order.
(The multiple-comparisons correction, by contrast, slices rows positionally
— see the counterexample.) -/
theorem c8_ttest_control_by_name (fns : StatFns) (mid : ℤ) (mname : String)
    (rows rows' : List VarStats) (controlVariant : String) (c : VarStats)
    (hperm : rows'.Perm rows)
    (hfilter : rows.filter (fun s => s.variant == controlVariant) = [c]) :
    ttestMetric fns controlVariant ⟨mid, mname, rows⟩ =
      some (rows.map (ttestVariantRow fns mid mname c)) ∧
    ttestMetric fns controlVariant ⟨mid, mname, rows'⟩ =
      some (rows'.map (ttestVariantRow fns mid mname c)) := by
  have hfilter' : rows'.filter (fun s => s.variant == controlVariant) = [c] :=
    List.Perm.eq_singleton ((hperm.filter _).trans (hfilter ▸ List.Perm.refl _))
  constructor
  · simp [ttestMetric, find?_of_filter_singleton hfilter]
  · simp [ttestMetric, find?_of_filter_singleton hfilter']

/-- C8 (witness): the name-based control lookup at a concrete two-variant
metric in both orders. -/
theorem c8_ttest_control_by_name_witness :
    ttestMetric c8Fns "a" ⟨1, "m", [c8A, c8B]⟩ =
      some ([c8A, c8B].map (ttestVariantRow c8Fns 1 "m" c8A)) ∧
    ttestMetric c8Fns "a" ⟨1, "m", [c8B, c8A]⟩ =
      some ([c8B, c8A].map (ttestVariantRow c8Fns 1 "m" c8A)) := by
  apply c8_ttest_control_by_name c8Fns 1 "m" [c8A, c8B] [c8B, c8A] "a" c8A
    (List.Perm.swap c8A c8B [])
  simp [c8A, c8B]

set_option maxHeartbeats 1000000 in
/-- The t-test row of the control against itself in the permutation
instance. -/
theorem c8RowA : ttestVariantRow c8Fns 1 "m" c8A c8A =
    ⟨1, "m", "a", 2, 1, 1, 2, 19 / 20, 0, 0, 1, 2, 1, 2⟩ := by
  norm_num [ttestVariantRow, relSe, welchDf, npRound, npTrunc, roundHalfEven,
    c8Fns, c8A]

set_option maxHeartbeats 1000000 in
/-- The t-test row of treatment `b` in the permutation instance. -/
theorem c8RowB : ttestVariantRow c8Fns 1 "m" c8A c8B =
    ⟨1, "m", "b", 2, 2, 2, 4, 19 / 20, 1, 1 / 2, 3 / 100, 4, 2, 1⟩ := by
  norm_num [ttestVariantRow, relSe, welchDf, npRound, npTrunc, roundHalfEven,
    c8Fns, c8A, c8B, Int.floor_eq_iff]

set_option maxHeartbeats 1000000 in
/-- The t-test row of treatment `c` in the permutation instance. -/
theorem c8RowC : ttestVariantRow c8Fns 1 "m" c8A c8C =
    ⟨1, "m", "c", 2, 3, 3, 6, 19 / 20, 2, 2 / 3, 1 / 50, 6, 3, 1⟩ := by
  norm_num [ttestVariantRow, relSe, welchDf, npRound, npTrunc, roundHalfEven,
    c8Fns, c8A, c8C, Int.floor_eq_iff]
  rw [show |(2 : ℚ) / 3| = 2 / 3 from abs_of_pos (by norm_num),
    if_neg (by norm_num)]
  norm_num

set_option maxHeartbeats 2000000 in
/-- The t-test table with the control listed first. -/
theorem c8Ttest1 : ttestEvaluation c8Fns [⟨1, "m", [c8A, c8B, c8C]⟩] "a" =
    some [⟨1, "m", "a", 2, 1, 1, 2, 19 / 20, 0, 0, 1, 2, 1, 2⟩,
          ⟨1, "m", "b", 2, 2, 2, 4, 19 / 20, 1, 1 / 2, 3 / 100, 4, 2, 1⟩,
          ⟨1, "m", "c", 2, 3, 3, 6, 19 / 20, 2, 2 / 3, 1 / 50, 6, 3, 1⟩] := by
  simp only [ttestEvaluation, ttestMetric, List.mapM_cons, List.mapM_nil]
  rw [show List.find? (fun s => s.variant == "a") [c8A, c8B, c8C] = some c8A by
    simp [c8A, c8B, c8C]]
  simp [c8RowA, c8RowB, c8RowC]

set_option maxHeartbeats 2000000 in
/-- The t-test table with the control listed second: each variant's row is
unchanged (the t-test finds the control by name). -/
theorem c8Ttest2 : ttestEvaluation c8Fns [⟨1, "m", [c8B, c8A, c8C]⟩] "a" =
    some [⟨1, "m", "b", 2, 2, 2, 4, 19 / 20, 1, 1 / 2, 3 / 100, 4, 2, 1⟩,
          ⟨1, "m", "a", 2, 1, 1, 2, 19 / 20, 0, 0, 1, 2, 1, 2⟩,
          ⟨1, "m", "c", 2, 3, 3, 6, 19 / 20, 2, 2 / 3, 1 / 50, 6, 3, 1⟩] := by
  simp only [ttestEvaluation, ttestMetric, List.mapM_cons, List.mapM_nil]
  rw [show List.find? (fun s => s.variant == "a") [c8B, c8A, c8C] = some c8A by
    simp [c8A, c8B, c8C]]
  simp [c8RowA, c8RowB, c8RowC]

set_option maxHeartbeats 2000000 in
/-- The corrected table with the control listed first: the slice
`df.loc[1..2]` hits the two treatments, whose p-values get Holm-adjusted
to `1/25`. -/
theorem c8Corrected1 :
    c8Out1 = [⟨1, "m", "a", 2, 1, 1, 2, 19 / 20, 0, 0, 1, 2, 1, 2⟩,
              ⟨1, "m", "b", 2, 2, 2, 4, 19 / 20, 1, 1 / 2, 1 / 25, 4, 2, 1⟩,
              ⟨1, "m", "c", 2, 3, 3, 6, 19 / 20, 2, 2 / 3, 1 / 25, 6, 3, 1⟩] := by
  simp only [c8Out1, c8Ttest1, Option.getD_some]
  norm_num [multipleComparisonsCorrection, mccBlock, holmAdjust, holmClipped,
    holmRaw, holmSorted, argsort, insertIdxBy, posOf, npNanToNumDiv,
    List.range_succ, c8Fns]

set_option maxHeartbeats 2000000 in
/-- The corrected table with the control listed second: the positional
slice now corrects the rows of `a` and `c` while `b` keeps its raw
p-value. -/
theorem c8Corrected2 :
    c8Out2 = [⟨1, "m", "b", 2, 2, 2, 4, 19 / 20, 1, 1 / 2, 3 / 100, 4, 2, 1⟩,
              ⟨1, "m", "a", 2, 1, 1, 2, 19 / 20, 0, 0, 1, 2, 1, 2⟩,
              ⟨1, "m", "c", 2, 3, 3, 6, 19 / 20, 2, 2 / 3, 1 / 25, 6, 3, 1⟩] := by
  simp only [c8Out2, c8Ttest2, Option.getD_some]
  norm_num [multipleComparisonsCorrection, mccBlock, holmAdjust, holmClipped,
    holmRaw, holmSorted, argsort, insertIdxBy, posOf, npNanToNumDiv,
    List.range_succ, c8Fns]

/-- C8 (counterexample): the full t-test plus Holm-correction pipeline on
one metric and three variants (control `a`, raw p-values `1, 0.03, 0.02`):
with the control listed first, variant `b` ends with the Holm-adjusted
p-value `1/25`; with the same data but the control listed second, the
positional slice `df.loc[1..2]` corrects the rows of `a` and `c` instead,
and `b` keeps its raw p-value `3/100` — a variant's emitted statistics
depend on the listing order. -/
theorem c8_correction_order_counterexample :
    (c8Out1.getD 1 rowDefault).variant = "b" ∧
    (c8Out2.getD 0 rowDefault).variant = "b" ∧
    (c8Out1.getD 1 rowDefault).pValue = 1 / 25 ∧
    (c8Out2.getD 0 rowDefault).pValue = 3 / 100 ∧
    ((1 : ℚ) / 25) ≠ 3 / 100 := by
  refine ⟨?_, ?_, ?_, ?_, by norm_num⟩ <;> simp [c8Corrected1, c8Corrected2]

/-- Looking up each key of a duplicate-free key list in its zip with a
value list recovers the value list. -/
theorem map_lookup_zip (cols ds : List String) (hnd : cols.Nodup)
    (hlen : ds.length = cols.length) :
    cols.map (fun d =>
      ((((cols.zip ds).find? (fun p => p.1 == d)).map (fun p => p.2)).getD ""))
      = ds := by
  induction cols generalizing ds with
  | nil =>
    cases ds with
    | nil => rfl
    | cons x xs => simp at hlen
  | cons c cs ih =>
    cases ds with
    | nil => simp at hlen
    | cons x xs =>
      simp only [List.zip_cons_cons, List.map_cons]
      have hc : c ∉ cs := (List.nodup_cons.mp hnd).1
      congr 1
      · rw [List.find?_cons_of_pos _ (by simp)]
        rfl
      · have hmap : cs.map (fun d =>
            (((((c, x) :: cs.zip xs).find? (fun p => p.1 == d)).map
              (fun p => p.2)).getD "")) = cs.map (fun d =>
            ((((cs.zip xs).find? (fun p => p.1 == d)).map
              (fun p => p.2)).getD "")) := by
          apply List.map_congr_left
          intro d hd
          rw [List.find?_cons_of_neg _ (by
            simp only [beq_iff_eq, Bool.not_eq_true, decide_eq_false_iff_not]
            intro hcd
            exact hc (hcd ▸ hd))]
        rw [hmap]
        exact ih xs (List.nodup_cons.mp hnd).2 (by simpa using hlen)

/-- The key of a grouped output row rebuilt from a key is that key. -/
theorem rowKeyOf_mk_zip (dimCols : List String) (hnd : dimCols.Nodup)
    (k : RowKey) (hlen : k.dims.length = dimCols.length)
    (c1 c2 c3 c4 c5 : ℚ) :
    rowKeyOf dimCols
      { expId := k.expId, variant := k.variant, unitType := k.unitType,
        aggType := k.aggType, goal := k.goal, dims := dimCols.zip k.dims,
        count := c1, sumSqrCount := c2, sumValue := c3, sumSqrValue := c4,
        countUnique := c5 } = k := by
  cases k with
  | mk e v u a go ds =>
    simp only [rowKeyOf, lookupDim, RowKey.mk.injEq, true_and]
    exact map_lookup_zip dimCols ds hnd (by simpa using hlen)

/-- Every output row of a group-sum carries a key of the input and its
numeric columns are the sums over its key group. -/
theorem groupSumBy_mem (dimCols : List String) (hnd : dimCols.Nodup)
    (rows : List GoalRow) (r : GoalRow) (hr : r ∈ groupSumBy dimCols rows) :
    rowKeyOf dimCols r ∈ rows.map (rowKeyOf dimCols) ∧
    r.count = ((rows.filter (fun x =>
      rowKeyOf dimCols x == rowKeyOf dimCols r)).map (fun x => x.count)).sum ∧
    r.sumValue = ((rows.filter (fun x =>
      rowKeyOf dimCols x == rowKeyOf dimCols r)).map
        (fun x => x.sumValue)).sum ∧
    r.sumSqrValue = ((rows.filter (fun x =>
      rowKeyOf dimCols x == rowKeyOf dimCols r)).map
        (fun x => x.sumSqrValue)).sum := by
  simp only [groupSumBy] at hr
  obtain ⟨k', hk'd, rfl⟩ := List.mem_map.mp hr
  have hk'mem : k' ∈ rows.map (rowKeyOf dimCols) := List.mem_dedup.mp hk'd
  have hlen : k'.dims.length = dimCols.length := by
    obtain ⟨x, _, rfl⟩ := List.mem_map.mp hk'mem
    simp [rowKeyOf]
  have hbody : rowKeyOf dimCols
      { expId := k'.expId, variant := k'.variant, unitType := k'.unitType,
        aggType := k'.aggType, goal := k'.goal, dims := dimCols.zip k'.dims,
        count := ((rows.filter (fun x =>
          rowKeyOf dimCols x == k')).map (fun x => x.count)).sum,
        sumSqrCount := ((rows.filter (fun x =>
          rowKeyOf dimCols x == k')).map (fun x => x.sumSqrCount)).sum,
        sumValue := ((rows.filter (fun x =>
          rowKeyOf dimCols x == k')).map (fun x => x.sumValue)).sum,
        sumSqrValue := ((rows.filter (fun x =>
          rowKeyOf dimCols x == k')).map (fun x => x.sumSqrValue)).sum,
        countUnique := ((rows.filter (fun x =>
          rowKeyOf dimCols x == k')).map (fun x => x.countUnique)).sum } = k' :=
    rowKeyOf_mk_zip dimCols hnd k' hlen _ _ _ _ _
  refine ⟨?_, ?_, ?_, ?_⟩
  · simp only [hbody]
    exact hk'mem
  · simp only [hbody]
  · simp only [hbody]
  · simp only [hbody]

/-- A group-sum has exactly one output row per input key. -/
theorem groupSumBy_countP (dimCols : List String) (hnd : dimCols.Nodup)
    (rows : List GoalRow) (k : RowKey)
    (hk : k ∈ rows.map (rowKeyOf dimCols)) :
    (groupSumBy dimCols rows).countP
      (fun r => rowKeyOf dimCols r == k) = 1 := by
  simp only [groupSumBy]
  rw [List.countP_map]
  have hcongr : ∀ k' ∈ (rows.map (rowKeyOf dimCols)).dedup,
      ((fun r => rowKeyOf dimCols r == k) ∘ (fun k' =>
        ({ expId := k'.expId, variant := k'.variant, unitType := k'.unitType,
           aggType := k'.aggType, goal := k'.goal,
           dims := dimCols.zip k'.dims,
           count := ((rows.filter (fun x =>
             rowKeyOf dimCols x == k')).map (fun x => x.count)).sum,
           sumSqrCount := ((rows.filter (fun x =>
             rowKeyOf dimCols x == k')).map (fun x => x.sumSqrCount)).sum,
           sumValue := ((rows.filter (fun x =>
             rowKeyOf dimCols x == k')).map (fun x => x.sumValue)).sum,
           sumSqrValue := ((rows.filter (fun x =>
             rowKeyOf dimCols x == k')).map (fun x => x.sumSqrValue)).sum,
           countUnique := ((rows.filter (fun x =>
             rowKeyOf dimCols x == k')).map (fun x =>
               x.countUnique)).sum } : GoalRow))) k' = (k' == k) := by
    intro k' hk'd
    have hk'mem : k' ∈ rows.map (rowKeyOf dimCols) := List.mem_dedup.mp hk'd
    have hlen : k'.dims.length = dimCols.length := by
      obtain ⟨x, _, rfl⟩ := List.mem_map.mp hk'mem
      simp [rowKeyOf]
    simp only [Function.comp]
    rw [rowKeyOf_mk_zip dimCols hnd k' hlen]
  rw [List.countP_congr (fun x hx => by rw [hcongr x hx])]
  have hcount : ((rows.map (rowKeyOf dimCols)).dedup).count k = 1 :=
    List.count_eq_one_of_mem (List.nodup_dedup _) (List.mem_dedup.mpr hk)
  simpa [List.count_eq_countP] using hcount

/-- C5: after the missing-cell filler, every (variant, goal-cell)
combination of the experiment — whether or not the variant has input rows
— is present as exactly one row of the filled table, and when the variant
has no input rows at all, that row carries all-zero counters (`count`,
`sum_value`, `sum_sqr_value`). -/
theorem c5_missing_variant_zero_fill (exp : ExperimentE) (g : List GoalRow)
    (goal : EpGoal) (v : String)
    (hv : v ∈ experimentVariants exp g)
    (hgoal : goal ∈ getGoals exp) :
    ((∀ r ∈ g, r.variant ≠ v) →
      ∀ r ∈ fixMissingAgg exp g,
      rowKeyOf (getDimensionColumns exp) r =
        rowKeyOf (getDimensionColumns exp)
          (zeroRow exp.id goal v (getDimensionColumns exp)) →
      r.count = 0 ∧ r.sumValue = 0 ∧ r.sumSqrValue = 0) ∧
    (fixMissingAgg exp g).countP (fun r =>
      rowKeyOf (getDimensionColumns exp) r ==
        rowKeyOf (getDimensionColumns exp)
          (zeroRow exp.id goal v (getDimensionColumns exp))) = 1 := by
  have hnd : (getDimensionColumns exp).Nodup := List.nodup_dedup _
  have hzr_mem : zeroRow exp.id goal v (getDimensionColumns exp) ∈
      g.filter (fun r => (experimentVariants exp g).contains r.variant) ++
      (getGoals exp).flatMap (fun g' => (experimentVariants exp g).map
        (fun v' => zeroRow exp.id g' v' (getDimensionColumns exp))) :=
    List.mem_append_right _ (List.mem_flatMap.mpr
      ⟨goal, hgoal, List.mem_map.mpr ⟨v, hv, rfl⟩⟩)
  have hk_mem : rowKeyOf (getDimensionColumns exp)
      (zeroRow exp.id goal v (getDimensionColumns exp)) ∈
      (g.filter (fun r => (experimentVariants exp g).contains r.variant) ++
       (getGoals exp).flatMap (fun g' => (experimentVariants exp g).map
         (fun v' => zeroRow exp.id g' v' (getDimensionColumns exp)))).map
        (rowKeyOf (getDimensionColumns exp)) :=
    List.mem_map.mpr ⟨_, hzr_mem, rfl⟩
  have hfix : fixMissingAgg exp g = groupSumBy (getDimensionColumns exp)
      (g.filter (fun r => (experimentVariants exp g).contains r.variant) ++
       (getGoals exp).flatMap (fun g' => (experimentVariants exp g).map
         (fun v' => zeroRow exp.id g' v' (getDimensionColumns exp)))) := rfl
  constructor
  · intro hnone r hr hkey
    rw [hfix] at hr
    obtain ⟨_, hcount, hsum, hsqr⟩ := groupSumBy_mem _ hnd _ r hr
    rw [hkey] at hcount hsum hsqr
    have hzero : ∀ x,
        x ∈ (g.filter (fun r =>
          (experimentVariants exp g).contains r.variant) ++
          (getGoals exp).flatMap (fun g' => (experimentVariants exp g).map
            (fun v' => zeroRow exp.id g' v'
              (getDimensionColumns exp)))).filter
          (fun x => rowKeyOf (getDimensionColumns exp) x ==
            rowKeyOf (getDimensionColumns exp)
              (zeroRow exp.id goal v (getDimensionColumns exp))) →
        x.count = 0 ∧ x.sumValue = 0 ∧ x.sumSqrValue = 0 := by
      intro x hx
      obtain ⟨hxall, hxk⟩ := List.mem_filter.mp hx
      have hxkey : rowKeyOf (getDimensionColumns exp) x =
          rowKeyOf (getDimensionColumns exp)
            (zeroRow exp.id goal v (getDimensionColumns exp)) := by
        simpa using hxk
      have hxvar : x.variant = v := congrArg RowKey.variant hxkey
      rcases List.mem_append.mp hxall with hxf | hxz
      · exact absurd hxvar (hnone x (List.mem_filter.mp hxf).1)
      · obtain ⟨g', _, hxm⟩ := List.mem_flatMap.mp hxz
        obtain ⟨v', _, rfl⟩ := List.mem_map.mp hxm
        exact ⟨rfl, rfl, rfl⟩
    refine ⟨?_, ?_, ?_⟩
    · rw [hcount]
      apply List.sum_eq_zero
      intro y hy
      obtain ⟨x, hx, rfl⟩ := List.mem_map.mp hy
      exact (hzero x hx).1
    · rw [hsum]
      apply List.sum_eq_zero
      intro y hy
      obtain ⟨x, hx, rfl⟩ := List.mem_map.mp hy
      exact (hzero x hx).2.1
    · rw [hsqr]
      apply List.sum_eq_zero
      intro y hy
      obtain ⟨x, hx, rfl⟩ := List.mem_map.mp hy
      exact (hzero x hx).2.2
  · rw [hfix]
    exact groupSumBy_countP _ hnd _ _ hk_mem

/-- C5 (witness): the filler statement at a concrete experiment with
explicit variants `a, b` and data only for `a` — the zero-fill and
one-row conclusions for the dataless variant `b`, and the one-row
conclusion also for variant `a`, which does have input rows. -/
theorem c5_missing_variant_zero_fill_witness :
    ((∀ r ∈ c5Rows, r.variant ≠ "b") →
      ∀ r ∈ fixMissingAgg c5Exp c5Rows,
      rowKeyOf (getDimensionColumns c5Exp) r =
        rowKeyOf (getDimensionColumns c5Exp)
          (zeroRow c5Exp.id (exposureGoal "u") "b"
            (getDimensionColumns c5Exp)) →
      r.count = 0 ∧ r.sumValue = 0 ∧ r.sumSqrValue = 0) ∧
    (fixMissingAgg c5Exp c5Rows).countP (fun r =>
      rowKeyOf (getDimensionColumns c5Exp) r ==
        rowKeyOf (getDimensionColumns c5Exp)
          (zeroRow c5Exp.id (exposureGoal "u") "b"
            (getDimensionColumns c5Exp))) = 1 ∧
    (fixMissingAgg c5Exp c5Rows).countP (fun r =>
      rowKeyOf (getDimensionColumns c5Exp) r ==
        rowKeyOf (getDimensionColumns c5Exp)
          (zeroRow c5Exp.id (exposureGoal "u") "a"
            (getDimensionColumns c5Exp))) = 1 := by
  have hb := c5_missing_variant_zero_fill c5Exp c5Rows (exposureGoal "u") "b"
    (by simp [experimentVariants, c5Exp]) (by simp [getGoals, c5Exp])
  have ha := c5_missing_variant_zero_fill c5Exp c5Rows (exposureGoal "u") "a"
    (by simp [experimentVariants, c5Exp]) (by simp [getGoals, c5Exp])
  exact ⟨hb.1, hb.2, ha.2⟩

end EpStats
